import Mathlib

/-!
Verification of the gitreader indexing pipeline.

The development shallowly embeds the pipeline code of `app/gitreader`
(`service.py`, `storage.py`, `routes.py`) into Lean.  Data types that live in
the repository module `models.py` (not part of the sources at hand) are
modelled from the specification, section 3.  Functions from missing modules
(`ingest.py`, `scan.py`, `parse_python.py`, `graph.py`) and from the Python
standard library (`hashlib.sha1`, `json.load`, `json.dump`) are taken as
parameters of the embedded pipeline, so every theorem quantifies over them.

Python strings are Lean `String`s; Python `list` is `List`; Python `dict` is
an association list `List (key, value)` with unique keys and insertion order;
Python `set` is `Finset`.  Machine-level concerns (file handles, timestamps)
are modelled by explicit maps `String -> FileOutcome` and a `now` parameter.
-/

namespace GitReader

/-! ### Small string helpers (kernel-computable replacements for str methods) -/

/-- A single-quote character, used by the Python `repr` of tuples. -/
def squote : String := String.singleton (Char.ofNat 39)

/-- Lexicographic strict order on character lists (Python `str` `<`). -/
def charListLt : List Char → List Char → Bool
  | [], [] => false
  | [], _ :: _ => true
  | _ :: _, [] => false
  | a :: as, b :: bs =>
    if a.toNat < b.toNat then true
    else if a.toNat == b.toNat then charListLt as bs
    else false

/-- Python tuple comparison `(str, int) <= (str, int)` as used by `sorted`. -/
def extLe (x y : String × Nat) : Bool :=
  charListLt x.1.data y.1.data || (x.1 == y.1 && Nat.ble x.2 y.2)

/-- Insertion of an element into a sorted list (helper for `insertionSort`). -/
def sortedInsert (le : α → α → Bool) (a : α) : List α → List α
  | [] => [a]
  | b :: bs => if le a b then a :: b :: bs else b :: sortedInsert le a bs

/-- Insertion sort; stands in for Python `sorted` (total order, stable). -/
def insertionSort (le : α → α → Bool) : List α → List α
  | [] => []
  | a :: as => sortedInsert le a (insertionSort le as)

/-- Python `s.startswith(p)`. -/
def strStartsWith (s p : String) : Bool := p.data.isPrefixOf s.data

/-- Python slicing `s[n:]`. -/
def strDrop (s : String) (n : Nat) : String := String.mk (s.data.drop n)

/-- Characters after the last slash (helper for `basename_py`). -/
def lastSlashComponent (cs : List Char) : List Char :=
  cs.foldl (fun acc c => if c == '/' then [] else acc ++ [c]) []

/-- Python `os.path.basename` for slash-separated paths. -/
def basename_py (p : String) : String := String.mk (lastSlashComponent p.data)

/-- Substring test on character lists (helper for `strContains`). -/
def listIsSub (needle : List Char) : List Char → Bool
  | [] => needle.isEmpty
  | c :: rest => needle.isPrefixOf (c :: rest) || listIsSub needle rest

/-- Python substring membership `needle in hay`. -/
def strContains (hay needle : String) : Bool := listIsSub needle.data hay.data

/-- Python truthiness of an optional string (`None` and `""` are falsy). -/
def optStrTruthy : Option String → Bool
  | none => false
  | some s => !(s == "")

/-- Python `os.path.join` restricted to relative right operands. -/
def joinPath (a b : String) : String := a ++ "/" ++ b

/-! ### Association-list dictionaries (Python `dict` with unique keys) -/

/-- Python `d.get(k)` on an association list. -/
def dictGet (m : List (String × α)) (k : String) : Option α :=
  (m.find? (fun kv => kv.1 == k)).map (fun kv => kv.2)

/-- Python `d.values()` on an association list. -/
def dictValues (m : List (String × α)) : List α := m.map (fun kv => kv.2)

/-- Insert the selected element, if any (helper for `foldInsert`). -/
def insertOpt [DecidableEq β] (acc : Finset β) : Option β → Finset β
  | some b => insert b acc
  | none => acc

/-- Accumulate a `Finset` from the elements a selector accepts; stands for the
Python pattern `for x in xs: if ...: acc.add(f(x))`. -/
def foldInsert [DecidableEq β] (g : α → Option β) (l : List α) : Finset β :=
  l.foldl (fun acc a => insertOpt acc (g a)) ∅

/-! ### Data model, modelled from the spec section 3 (`models.py` is not in
the sources): `SourceLocation`, `SymbolNode`, `GraphEdge`, `Warning`,
`ScanResult`, `Stats`, `RepoIndex`, `RepoSpec`, `RepositoryHandle`. -/

structure SourceLocation where
  path : Option String
  start_line : Option Nat
  end_line : Option Nat
deriving DecidableEq

structure SymbolNode where
  id : String
  name : String
  kind : String
  summary : String
  signature : Option String
  docstring : Option String
  location : Option SourceLocation
deriving DecidableEq

structure GraphEdge where
  source : String
  target : String
  kind : String
  confidence : String
deriving DecidableEq

structure Warning where
  code : String
  message : String
  location : Option String
deriving DecidableEq

structure ScanResult where
  python_files : List String
  total_files : Nat
  total_bytes : Nat
  extension_counts : List (String × Nat)
  warnings : List Warning
deriving DecidableEq

structure Stats where
  total_files : Nat
  total_bytes : Nat
  python_files : Nat
  nodes : Nat
  edges : Nat
  warnings : Nat
deriving DecidableEq

/-- JSON values, the shape of what Python `json.load` can return. -/
inductive Json where
  | null : Json
  | boolVal (b : Bool) : Json
  | numVal (n : Int) : Json
  | strVal (s : String) : Json
  | arrVal (items : List Json) : Json
  | objVal (fields : List (String × Json)) : Json

/-- Python `isinstance(payload, dict)`. -/
def Json.isObj : Json → Bool
  | .objVal _ => true
  | _ => false

structure RepoIndex where
  repo_id : String
  root_path : String
  commit_sha : Option String
  nodes : List (String × SymbolNode)
  edges : List GraphEdge
  toc : Json
  warnings : List Warning
  stats : Stats
  content_signature : String
  generated_at : Nat

structure RepoSpec where
  repo_url : Option String
  ref : Option String
  subdir : Option String
  local_path : Option String

structure RepoHandle where
  repo_id : String
  root_path : String
  commit_sha : Option String

/-- The node location path as the query layer reads it: `None` unless the
node has a location with a truthy path (`if not location or not
location.path: ...`); on this platform `path.replace(os.sep, "/")` is the
identity. -/
def nodeLocPath (n : SymbolNode) : Option String :=
  match n.location with
  | none => none
  | some l => if optStrTruthy l.path then l.path else none

/-! ### Content signature, from `service.py` `_compute_signature`
(lines 115-118).  `hashlib.sha1(...).hexdigest()` is a parameter `sha1`. -/

/-- Python `repr` of one `(str, int)` tuple. -/
def pyReprExtPair (kv : String × Nat) : String :=
  "(" ++ squote ++ kv.1 ++ squote ++ ", " ++ toString kv.2 ++ ")"

/-- Python `repr` of a list of `(str, int)` tuples, as interpolated by the
f-string in `_compute_signature`. -/
def pyReprExtList (l : List (String × Nat)) : String :=
  "[" ++ String.intercalate ", " (l.map pyReprExtPair) ++ "]"

/-- Python `sorted(scan_result.extension_counts.items())`. -/
def sortedExtensions (s : ScanResult) : List (String × Nat) :=
  insertionSort extLe s.extension_counts

/-- The payload string of `_compute_signature`:
`f"{commit_sha or ''}|{total_files}|{total_bytes}|{len(python_files)}|{extensions}"`. -/
def signaturePayload (commit_sha : Option String) (s : ScanResult) : String :=
  (match commit_sha with | none => "" | some c => c) ++ "|" ++
    toString s.total_files ++ "|" ++ toString s.total_bytes ++ "|" ++
    toString s.python_files.length ++ "|" ++ pyReprExtList (sortedExtensions s)

/-- `service._compute_signature`, with the hash function as a parameter. -/
def compute_signature (sha1 : String → String) (commit_sha : Option String)
    (s : ScanResult) : String :=
  sha1 (signaturePayload commit_sha s)

/-! ### Cache storage, from `storage.py`.  The filesystem is a map from path
to `FileOutcome`; `json.load` and `RepoIndex.from_dict` are parameters
(`json` is library code, `from_dict` lives in the absent `models.py` and is
modelled from the spec as a total decoder of JSON objects). -/

/-- What opening and reading a file can yield: the path does not exist
(`os.path.exists` is false), opening or reading raises `OSError`, or the
file is read as a string. -/
inductive FileOutcome where
  | missing : FileOutcome
  | ioError : FileOutcome
  | okFile (content : String) : FileOutcome
deriving DecidableEq

/-- `storage.index_path`. -/
def index_path (cache_root repo_id : String) : String :=
  joinPath cache_root (repo_id ++ ".json")

/-- `storage.load_index`: `None` on a missing file, on `OSError`, on a
`json.JSONDecodeError` (`json_load` returns `none`), and on a top-level value
that is not a JSON object; otherwise `RepoIndex.from_dict(payload)`. -/
def load_index (json_load : String → Option Json) (from_dict : Json → RepoIndex)
    (fs : String → FileOutcome) (cache_root repo_id : String) : Option RepoIndex :=
  match fs (index_path cache_root repo_id) with
  | .missing => none
  | .ioError => none
  | .okFile content =>
    match json_load content with
    | none => none
    | some payload => if payload.isObj then some (from_dict payload) else none

/-- `storage.save_index`: writes the serialization of the index over whatever
was at the index path before (`open(path, "w")` truncates), leaving every
other path untouched; `json.dump` composed with `to_dict` is the parameter
`dumps`. -/
def save_index (dumps : RepoIndex → String) (fs : String → FileOutcome)
    (cache_root : String) (index : RepoIndex) : String → FileOutcome :=
  fun p => if p = index_path cache_root index.repo_id then .okFile (dumps index) else fs p

/-! ### Snippet query, from `service.py` (`get_symbol_snippet`,
`_read_source_lines`, `_resolve_line_range`). -/

def DEFAULT_SNIPPET_LINES : Nat := 200

def DEFAULT_FALLBACK_CONTEXT : Nat := 40

/-- What reading a source file with `open(path, encoding="utf-8")` can do:
raise `OSError`, decode cleanly into lines, raise `UnicodeDecodeError` and
then succeed on the `errors="replace"` retry, or raise `UnicodeDecodeError`
and then `OSError` on the retry. -/
inductive SrcOutcome where
  | osErr : SrcOutcome
  | utf8Ok (lines : List String) : SrcOutcome
  | decodeErrThenOk (lines : List String) : SrcOutcome
  | decodeErrThenErr : SrcOutcome
deriving DecidableEq

/-- `service._read_source_lines`. -/
def read_source_lines (fs : String → SrcOutcome) (path : String) : List String :=
  match fs path with
  | .utf8Ok lines => lines
  | .decodeErrThenOk lines => lines
  | .decodeErrThenErr => []
  | .osErr => []

/-- The start line `_resolve_line_range` computes:
`max(1, getattr(location, "start_line", 1) or 1)`. -/
def startLineOf (loc : SourceLocation) : Nat :=
  max 1 (match loc.start_line with | none => 1 | some n => if n == 0 then 1 else n)

/-- The raw end line `_resolve_line_range` reads:
`getattr(location, "end_line", 0) or 0`. -/
def endLineOf (loc : SourceLocation) : Nat :=
  match loc.end_line with | none => 0 | some n => n

/-- `service._resolve_line_range`.  Line numbers are nonnegative Python ints,
so `Nat` arithmetic with truncated subtraction agrees with the source: the
only subtraction, `end - start + 1`, is compared against the nonnegative
`max_lines`, and `Nat` clamps exactly the cases where the Python value is
nonpositive. -/
def resolve_line_range (kind : String) (loc : SourceLocation)
    (total_lines max_lines : Nat) : Nat × Nat :=
  let start_line := startLineOf loc
  let end_line0 := endLineOf loc
  if kind == "file" && end_line0 == 0 then
    (start_line, min total_lines (start_line + max_lines - 1))
  else
    let end_line1 :=
      if end_line0 < start_line then
        min total_lines (start_line + DEFAULT_FALLBACK_CONTEXT - 1)
      else end_line0
    let end_line2 :=
      if max_lines < end_line1 + 1 - start_line then
        min total_lines (start_line + max_lines - 1)
      else end_line1
    (start_line, min end_line2 total_lines)

/-- The record `service.get_symbol_snippet` returns. -/
structure Snippet where
  id : String
  name : String
  kind : String
  summary : String
  signature : Option String
  docstring : Option String
  location : SourceLocation
  start_line : Nat
  end_line : Nat
  total_lines : Nat
  truncated : Bool
  snippet : String
deriving DecidableEq

/-- The body of `service.get_symbol_snippet` after the index is in hand
(everything from `node = index.nodes.get(symbol_id)` on); `raise ValueError`
is `Except.error` with the raised message. -/
def snippet_query (fs : String → SrcOutcome) (index : RepoIndex)
    (symbol_id : String) (max_lines : Nat) : Except String Snippet :=
  match dictGet index.nodes symbol_id with
  | none => .error "Symbol not found"
  | some node =>
    match node.location with
    | none => .error "Symbol has no location"
    | some loc =>
      if !(optStrTruthy loc.path) then .error "Symbol has no location"
      else
        let source_path := joinPath index.root_path (loc.path.getD "")
        let lines := read_source_lines fs source_path
        if lines.isEmpty then .error "Source file is empty or unreadable"
        else
          let r := resolve_line_range node.kind loc lines.length max_lines
          let start_line := r.1
          let end_line := r.2
          let snippet_lines := (lines.drop (start_line - 1)).take (end_line - (start_line - 1))
          let line_count := end_line + 1 - start_line
          let truncated :=
            if node.kind == "file" then decide (end_line < lines.length)
            else decide (max_lines ≤ line_count) && decide (end_line < lines.length)
          .ok { id := node.id, name := node.name, kind := node.kind,
                summary := node.summary, signature := node.signature,
                docstring := node.docstring, location := loc,
                start_line := start_line, end_line := end_line,
                total_lines := lines.length, truncated := truncated,
                snippet := String.join snippet_lines }

/-! ### Pipeline, from `service.py` `get_repo_index` (lines 18-69).  The
stages living in the absent modules are parameters gathered in
`PipelineDeps`: `ingest.ensure_repo`, `os.path.isdir`, `scan.scan_repo`,
`parse_python.parse_files`, `graph.build_graph`, plus the serialization
parameters of the storage layer, the hash, and the clock (`time.time`). -/

/-- What `parse_python.parse_files` returns, at the granularity the pipeline
uses: a list of per-file symbol tables (abstract type `φ`) and warnings. -/
structure ParseOutput (φ : Type) where
  files : List φ
  warnings : List Warning

/-- What `graph.build_graph` returns, at the granularity the pipeline uses. -/
structure GraphOutput where
  nodes : List (String × SymbolNode)
  edges : List GraphEdge
  toc : Json

structure PipelineDeps (φ : Type) where
  ensure_repo : RepoSpec → String → RepoHandle
  isdir : String → Bool
  scan_repo : String → ScanResult
  parse_files : String → List String → ParseOutput φ
  build_graph : List φ → GraphOutput
  json_load : String → Option Json
  from_dict : Json → RepoIndex
  dumps : RepoIndex → String
  sha1 : String → String
  now : Nat

/-- The scan root `get_repo_index` uses: the handle root, or the joined
subdir when the spec carries a truthy one. -/
def scan_root_of {φ : Type} (deps : PipelineDeps φ) (spec : RepoSpec)
    (cache_root : String) : String :=
  let handle := deps.ensure_repo spec (joinPath cache_root "repos")
  if optStrTruthy spec.subdir then joinPath handle.root_path (spec.subdir.getD "")
  else handle.root_path

/-- The index `get_repo_index` builds on a miss (`service.py` lines 42-66). -/
def build_fresh {φ : Type} (deps : PipelineDeps φ) (scan_root : String)
    (handle : RepoHandle) (scan_result : ScanResult)
    (content_signature : String) : RepoIndex :=
  let parsed := deps.parse_files scan_root scan_result.python_files
  let graph := deps.build_graph parsed.files
  let warnings := scan_result.warnings ++ parsed.warnings
  { repo_id := handle.repo_id, root_path := scan_root,
    commit_sha := handle.commit_sha, nodes := graph.nodes,
    edges := graph.edges, toc := graph.toc, warnings := warnings,
    stats := { total_files := scan_result.total_files,
               total_bytes := scan_result.total_bytes,
               python_files := scan_result.python_files.length,
               nodes := graph.nodes.length, edges := graph.edges.length,
               warnings := warnings.length },
    content_signature := content_signature, generated_at := deps.now }

/-- `service.get_repo_index`.  Returns the served index together with the
filesystem after the call; `raise ValueError` is `Except.error`. -/
def get_repo_index {φ : Type} (deps : PipelineDeps φ) (spec : RepoSpec)
    (cache_root : String) (fs : String → FileOutcome) :
    Except String (RepoIndex × (String → FileOutcome)) :=
  let repo_cache_root := joinPath cache_root "repos"
  let index_cache_root := joinPath cache_root "index"
  let handle := deps.ensure_repo spec repo_cache_root
  let scan_root := scan_root_of deps spec cache_root
  if optStrTruthy spec.subdir && !(deps.isdir scan_root) then
    .error ("Subdir not found: " ++ spec.subdir.getD "")
  else
    let scan_result := deps.scan_repo scan_root
    let content_signature := compute_signature deps.sha1 handle.commit_sha scan_result
    match load_index deps.json_load deps.from_dict fs index_cache_root handle.repo_id with
    | some cached =>
      if cached.content_signature == content_signature then .ok (cached, fs)
      else
        let built := build_fresh deps scan_root handle scan_result content_signature
        .ok (built, save_index deps.dumps fs index_cache_root built)
    | none =>
      let built := build_fresh deps scan_root handle scan_result content_signature
      .ok (built, save_index deps.dumps fs index_cache_root built)

/-- The handle `get_repo_index` acquires. -/
def pipeline_handle {φ : Type} (deps : PipelineDeps φ) (spec : RepoSpec)
    (cache_root : String) : RepoHandle :=
  deps.ensure_repo spec (joinPath cache_root "repos")

/-- The scan `get_repo_index` performs. -/
def fresh_scan {φ : Type} (deps : PipelineDeps φ) (spec : RepoSpec)
    (cache_root : String) : ScanResult :=
  deps.scan_repo (scan_root_of deps spec cache_root)

/-- The signature `get_repo_index` computes from the fresh scan. -/
def fresh_signature {φ : Type} (deps : PipelineDeps φ) (spec : RepoSpec)
    (cache_root : String) : String :=
  compute_signature deps.sha1 (pipeline_handle deps spec cache_root).commit_sha
    (fresh_scan deps spec cache_root)

/-- The index `get_repo_index` builds and saves on a cache miss. -/
def fresh_built {φ : Type} (deps : PipelineDeps φ) (spec : RepoSpec)
    (cache_root : String) : RepoIndex :=
  build_fresh deps (scan_root_of deps spec cache_root)
    (pipeline_handle deps spec cache_root) (fresh_scan deps spec cache_root)
    (fresh_signature deps spec cache_root)

/-! ### Scoped graph query, from `routes.py` (`_filter_graph`,
`_apply_scope_paths`, `_group_paths`, `_story_scope_paths`). -/

/-- `routes._group_paths`: file paths of located nodes that fall in the named
top-level directory, or root-level paths for group `root`. -/
def group_paths (index : RepoIndex) (group : String) : Finset String :=
  foldInsert
    (fun kv =>
      match nodeLocPath kv.2 with
      | none => none
      | some p =>
        if group == "root" then (if p.data.contains '/' then none else some p)
        else if strStartsWith p (group ++ "/") then some p
        else none)
    index.nodes

/-- The file paths of the file-kind nodes of an index (`_story_scope_paths`,
first loop). -/
def story_file_paths (index : RepoIndex) : Finset String :=
  foldInsert
    (fun kv => if kv.2.kind == "file" then nodeLocPath kv.2 else none)
    index.nodes

def entry_names : List String :=
  ["flasky.py", "manage.py", "app.py", "wsgi.py", "asgi.py", "main.py"]

def config_names : List String := ["config.py", "settings.py", "configuration.py"]

def route_filenames : List String :=
  ["views.py", "routes.py", "handlers.py", "controllers.py", "blueprints.py", "urls.py"]

/-- Entry-point candidates: file paths with a conventional bootstrap
basename. -/
def entry_candidates (index : RepoIndex) : Finset String :=
  (story_file_paths index).filter (fun p => entry_names.contains (basename_py p))

/-- Configuration candidates: file paths with a conventional settings
basename. -/
def config_candidates (index : RepoIndex) : Finset String :=
  (story_file_paths index).filter (fun p => config_names.contains (basename_py p))

/-- Route candidates: conventional controller basenames plus the paths of
blueprint-kind nodes. -/
def route_candidates (index : RepoIndex) : Finset String :=
  ((story_file_paths index).filter (fun p => route_filenames.contains (basename_py p))) ∪
    foldInsert
      (fun n => if n.kind == "blueprint" then nodeLocPath n else none)
      (dictValues index.nodes)

/-- Ids of external nodes whose name mentions `render_template`. -/
def render_target_ids (index : RepoIndex) : Finset String :=
  foldInsert
    (fun kv =>
      if kv.2.kind == "external" && strContains kv.2.name "render_template" then some kv.1
      else none)
    index.nodes

/-- Template candidates: paths of located sources of edges into a render
target (empty when there is no render target, as in the code's guard). -/
def template_candidates (index : RepoIndex) : Finset String :=
  if render_target_ids index = ∅ then ∅
  else
    foldInsert
      (fun e =>
        if e.target ∈ render_target_ids index then
          match dictGet index.nodes e.source with
          | some n => nodeLocPath n
          | none => none
        else none)
      index.edges

/-- The five category sets `_story_scope_paths` returns. -/
structure StoryPaths where
  entry : Finset String
  config : Finset String
  routes : Finset String
  templates : Finset String
  other : Finset String

/-- `reserve(entry_paths)` against the initially empty `assigned` set. -/
def entry_reserved (index : RepoIndex) : Finset String :=
  (entry_candidates index).filter (fun p => p ∉ (∅ : Finset String))

/-- `assigned` after the entry reservation. -/
def assigned1 (index : RepoIndex) : Finset String :=
  (∅ : Finset String) ∪ entry_reserved index

/-- `reserve(config_paths)`. -/
def config_reserved (index : RepoIndex) : Finset String :=
  (config_candidates index).filter (fun p => p ∉ assigned1 index)

/-- `assigned` after the config reservation. -/
def assigned2 (index : RepoIndex) : Finset String :=
  assigned1 index ∪ config_reserved index

/-- `reserve(route_paths)`. -/
def route_reserved (index : RepoIndex) : Finset String :=
  (route_candidates index).filter (fun p => p ∉ assigned2 index)

/-- `assigned` after the route reservation. -/
def assigned3 (index : RepoIndex) : Finset String :=
  assigned2 index ∪ route_reserved index

/-- `reserve(template_paths)`. -/
def template_reserved (index : RepoIndex) : Finset String :=
  (template_candidates index).filter (fun p => p ∉ assigned3 index)

/-- `assigned` after the template reservation. -/
def assigned4 (index : RepoIndex) : Finset String :=
  assigned3 index ∪ template_reserved index

/-- `routes._story_scope_paths`: candidates claimed in priority order by the
`reserve` helper (a path already assigned is filtered out), with `other` the
remaining file paths. -/
def story_scope_paths (index : RepoIndex) : StoryPaths :=
  { entry := entry_reserved index, config := config_reserved index,
    routes := route_reserved index, templates := template_reserved index,
    other := story_file_paths index \ assigned4 index }

/-- Python `story_paths.get(scope, set())` over the dictionary
`_story_scope_paths` returns. -/
def storyGet (sp : StoryPaths) (scope : String) : Finset String :=
  if scope == "story:entry" then sp.entry
  else if scope == "story:config" then sp.config
  else if scope == "story:routes" then sp.routes
  else if scope == "story:templates" then sp.templates
  else if scope == "story:other" then sp.other
  else ∅

/-- The node ids `_apply_scope_paths` collects from the allowed paths
(`allowed`, before the external extension). -/
def matched_ids (index : RepoIndex) (allowed_paths : Finset String) : Finset String :=
  foldInsert
    (fun kv =>
      match nodeLocPath kv.2 with
      | none => none
      | some p => if p ∈ allowed_paths then some kv.2.id else none)
    index.nodes

/-- The ids of external nodes sitting just across an edge from the allowed
set (`external_extra` in `_apply_scope_paths`). -/
def external_extra (index : RepoIndex) (allowed : Finset String) : Finset String :=
  foldInsert
    (fun e =>
      if e.source ∈ allowed ∧ e.target ∉ allowed then
        match dictGet index.nodes e.target with
        | some tn => if tn.kind == "external" then some e.target else none
        | none => none
      else if e.target ∈ allowed ∧ e.source ∉ allowed then
        match dictGet index.nodes e.source with
        | some sn => if sn.kind == "external" then some e.source else none
        | none => none
      else none)
    index.edges

/-- The scope's id set: matched nodes plus adjacent externals. -/
def scope_ids (index : RepoIndex) (allowed_paths : Finset String) : Finset String :=
  matched_ids index allowed_paths ∪
    external_extra index (matched_ids index allowed_paths)

/-- `routes._apply_scope_paths`. -/
def apply_scope_paths (index : RepoIndex) (allowed_paths : Finset String) :
    List SymbolNode × List GraphEdge :=
  let allowed := matched_ids index allowed_paths
  if allowed = ∅ then (dictValues index.nodes, index.edges)
  else
    let allowed2 := allowed ∪ external_extra index allowed
    (((index.nodes.filter (fun kv => decide (kv.1 ∈ allowed2))).map (fun kv => kv.2)),
      index.edges.filter (fun e => decide (e.source ∈ allowed2) && decide (e.target ∈ allowed2)))

/-- `routes._filter_graph`. -/
def filter_graph (index : RepoIndex) (scope : String) :
    List SymbolNode × List GraphEdge :=
  if scope == "" || scope == "full" then (dictValues index.nodes, index.edges)
  else if strStartsWith scope "group:" then
    let allowed_paths := group_paths index (strDrop scope 6)
    if allowed_paths = ∅ then (dictValues index.nodes, index.edges)
    else apply_scope_paths index allowed_paths
  else if strStartsWith scope "story:" then
    let allowed_paths := storyGet (story_scope_paths index) scope
    if allowed_paths = ∅ then (dictValues index.nodes, index.edges)
    else apply_scope_paths index allowed_paths
  else (dictValues index.nodes, index.edges)

/-! ### External collapsing, from `routes.py` `_collapse_externals`. -/

/-- The deduplication key of an edge: `(source, target, kind, confidence)`. -/
def edgeKey (e : GraphEdge) : String × String × String × String :=
  (e.source, e.target, e.kind, e.confidence)

/-- The mutable state of the `_collapse_externals` loop: `grouped_nodes` and
`grouped_externals` are insertion-ordered dictionaries, `seen_edges` a set. -/
structure CollapseState where
  grouped_nodes : List (String × SymbolNode)
  grouped_externals : List (String × List String)
  new_edges : List GraphEdge
  seen_edges : List (String × String × String × String)

/-- The inner `add_edge` helper: append the edge unless its key was seen. -/
def add_edge (st : CollapseState) (s t k c : String) : CollapseState :=
  if (s, t, k, c) ∈ st.seen_edges then st
  else { st with seen_edges := (s, t, k, c) :: st.seen_edges,
                 new_edges := st.new_edges ++
                   [{ source := s, target := t, kind := k, confidence := c }] }

/-- Python `{node.id: node for node in nodes}[i]`: the last node with the id
wins, as dict comprehension overwrites. -/
def node_by_id (nodes : List SymbolNode) (i : String) : Option SymbolNode :=
  nodes.reverse.find? (fun n => n.id == i)

/-- The inner `file_path_for` helper. -/
def file_path_for (nodes : List SymbolNode) (i : String) : Option String :=
  match node_by_id nodes i with
  | none => none
  | some n => nodeLocPath n

/-- The inner `ensure_group_node` helper: create the per-file synthetic node
on first sight of the path, and return the group id. -/
def ensure_group_node (st : CollapseState) (file_path : String) :
    CollapseState × String :=
  let group_id := "external-group:" ++ file_path
  match dictGet st.grouped_nodes group_id with
  | some _ => (st, group_id)
  | none =>
    let raw := basename_py file_path
    let file_name := if raw == "" then file_path else raw
    ({ st with grouped_nodes := st.grouped_nodes ++
        [(group_id,
          { id := group_id, name := "External dependencies - " ++ file_name,
            kind := "external", summary := "External dependencies",
            signature := none, docstring := none,
            location := some { path := some file_path, start_line := none,
                               end_line := none } })] },
      group_id)

/-- `grouped_externals.setdefault(group_id, set()).add(name)`. -/
def groupedInsert (ge : List (String × List String)) (gid name : String) :
    List (String × List String) :=
  match dictGet ge gid with
  | none => ge ++ [(gid, [name])]
  | some _ =>
    ge.map (fun kv =>
      if kv.1 == gid then (kv.1, if name ∈ kv.2 then kv.2 else kv.2 ++ [name])
      else kv)

/-- One iteration of the `for edge in edges` loop of `_collapse_externals`. -/
def collapse_step (nodes : List SymbolNode) (external_ids : Finset String)
    (st : CollapseState) (e : GraphEdge) : CollapseState :=
  let sE := decide (e.source ∈ external_ids)
  let tE := decide (e.target ∈ external_ids)
  if !sE && !tE then add_edge st e.source e.target e.kind e.confidence
  else if sE && tE then add_edge st e.source e.target e.kind e.confidence
  else
    let external_id := if sE then e.source else e.target
    let other_id := if sE then e.target else e.source
    match file_path_for nodes other_id with
    | none => add_edge st e.source e.target e.kind e.confidence
    | some file_path =>
      let pr := ensure_group_node st file_path
      let st1 := pr.1
      let group_id := pr.2
      let st2 :=
        match node_by_id nodes external_id with
        | some en =>
          { st1 with grouped_externals := groupedInsert st1.grouped_externals group_id en.name }
        | none => st1
      if sE then add_edge st2 group_id other_id e.kind e.confidence
      else add_edge st2 other_id group_id e.kind e.confidence

/-- The state after the whole edge loop of `_collapse_externals`. -/
def collapse_fold (nodes : List SymbolNode) (external_ids : Finset String)
    (edges : List GraphEdge) : CollapseState :=
  edges.foldl (collapse_step nodes external_ids)
    { grouped_nodes := [], grouped_externals := [], new_edges := [], seen_edges := [] }

/-- The summary text written onto a group node:
`f"{count} external symbol{'' if count == 1 else 's'}"`. -/
def groupSummary (count : Nat) : String :=
  toString count ++ " external symbol" ++ (if count == 1 then "" else "s")

/-- The summary-update loop: for every group with recorded external names,
set the group node's summary from the count of distinct names.  In the code
this mutates `grouped_nodes[group_id]`; every key of `grouped_externals` is a
key of `grouped_nodes` (the setdefault follows `ensure_group_node`), so the
per-entry map below is the same update. -/
def apply_summaries (st : CollapseState) : List (String × SymbolNode) :=
  st.grouped_nodes.map (fun kv =>
    match dictGet st.grouped_externals kv.1 with
    | some names => (kv.1, { kv.2 with summary := groupSummary names.length })
    | none => kv)

/-- The external-node id set `_collapse_externals` starts from. -/
def external_ids_of (nodes : List SymbolNode) : Finset String :=
  foldInsert (fun n => if n.kind == "external" then some n.id else none) nodes

/-- `routes._collapse_externals`. -/
def collapse_externals (nodes : List SymbolNode) (edges : List GraphEdge) :
    List SymbolNode × List GraphEdge :=
  let external_ids : Finset String := external_ids_of nodes
  if external_ids = ∅ then (nodes, edges)
  else
    let st := collapse_fold nodes external_ids edges
    let grouped_nodes2 := apply_summaries st
    let referenced : Finset String :=
      foldInsert (fun e => some e.source) st.new_edges ∪
        foldInsert (fun e => some e.target) st.new_edges
    let retained := nodes.filter
      (fun n => !(n.kind == "external") || decide (n.id ∈ referenced))
    (retained ++ grouped_nodes2.map (fun kv => kv.2), st.new_edges)

/-- The loop invariant of `_collapse_externals`: emitted edges are
duplicate-free and mirrored by the seen-set, the group-node dictionary has
unique keys and each group node carries its key as id, every group with
recorded external names has a group node, and each recorded name set is
duplicate-free. -/
structure StInv (st : CollapseState) : Prop where
  edges_nodup : (st.new_edges.map edgeKey).Nodup
  seen_iff : ∀ k, k ∈ st.seen_edges ↔ k ∈ st.new_edges.map edgeKey
  keys_nodup : (st.grouped_nodes.map (fun kv => kv.1)).Nodup
  node_id : ∀ kv ∈ st.grouped_nodes, kv.2.id = kv.1
  ext_sub : ∀ g, (∃ kv ∈ st.grouped_externals, kv.1 = g) →
    ∃ kv ∈ st.grouped_nodes, kv.1 = g
  names_nodup : ∀ kv ∈ st.grouped_externals, kv.2.Nodup

/-! ### Concrete sample data used by witnesses -/

/-- The file node of the spec's external-collapsing example. -/
def nF7 : SymbolNode :=
  { id := "file:main.py", name := "main.py", kind := "file", summary := "",
    signature := none, docstring := none,
    location := some { path := some "main.py", start_line := none,
                       end_line := none } }

/-- First unresolved call target. -/
def nE7a : SymbolNode :=
  { id := "external:foo", name := "foo", kind := "external", summary := "",
    signature := none, docstring := none, location := none }

/-- Second unresolved call target. -/
def nE7b : SymbolNode :=
  { id := "external:bar", name := "bar", kind := "external", summary := "",
    signature := none, docstring := none, location := none }

def e7a : GraphEdge :=
  { source := "file:main.py", target := "external:foo", kind := "calls",
    confidence := "low" }

def e7b : GraphEdge :=
  { source := "file:main.py", target := "external:bar", kind := "calls",
    confidence := "low" }

/-- The synthetic group node the example must produce. -/
def gN7 : SymbolNode :=
  { id := "external-group:main.py",
    name := "External dependencies - main.py", kind := "external",
    summary := "2 external symbols", signature := none, docstring := none,
    location := some { path := some "main.py", start_line := none,
                       end_line := none } }

/-- The single redirected edge the example must produce. -/
def gE7 : GraphEdge :=
  { source := "file:main.py", target := "external-group:main.py",
    kind := "calls", confidence := "low" }

/-- A located function node used by the snippet witnesses. -/
def sampleLoc : SourceLocation :=
  { path := some "m.py", start_line := some 1, end_line := some 2 }

def sampleFnNode : SymbolNode :=
  { id := "symbol:m.g", name := "g", kind := "function", summary := "",
    signature := none, docstring := none, location := some sampleLoc }

/-- A one-node index used by the snippet witnesses. -/
def sampleIndex : RepoIndex :=
  { repo_id := "r", root_path := "root", commit_sha := none,
    nodes := [("symbol:m.g", sampleFnNode)], edges := [], toc := .null,
    warnings := [],
    stats := { total_files := 0, total_bytes := 0, python_files := 0,
               nodes := 0, edges := 0, warnings := 0 },
    content_signature := "s", generated_at := 0 }

/-- A cached index whose signature matches what `depsW` recomputes. -/
def cachedW : RepoIndex :=
  { repo_id := "rid", root_path := "rroot", commit_sha := none, nodes := [],
    edges := [], toc := .null, warnings := [],
    stats := { total_files := 1, total_bytes := 2, python_files := 0,
               nodes := 0, edges := 0, warnings := 0 },
    content_signature := "|1|2|0|[]", generated_at := 3 }

/-- Concrete pipeline dependencies for the cache-hit witness (the hash is the
identity, so the signature is the payload string itself). -/
def depsW : PipelineDeps Unit :=
  { ensure_repo := fun _ _ =>
      { repo_id := "rid", root_path := "rroot", commit_sha := none },
    isdir := fun _ => true,
    scan_repo := fun _ =>
      { python_files := [], total_files := 1, total_bytes := 2,
        extension_counts := [], warnings := [] },
    parse_files := fun _ _ => { files := [], warnings := [] },
    build_graph := fun _ => { nodes := [], edges := [], toc := .null },
    json_load := fun _ => some (.objVal []),
    from_dict := fun _ => cachedW,
    dumps := fun _ => "serialized",
    sha1 := fun s => s,
    now := 7 }

def specW : RepoSpec :=
  { repo_url := none, ref := none, subdir := none, local_path := some "x" }

def fsW : String → FileOutcome := fun _ => .okFile "cache file content"

/-- Shorthand for a located file node (sample data only). -/
def mkFileNode (p : String) : SymbolNode :=
  { id := "file:" ++ p, name := p, kind := "file", summary := "",
    signature := none, docstring := none,
    location := some { path := some p, start_line := none, end_line := none } }

/-- A small index exercising every story category: an entry point that also
hosts a blueprint, a config file, a route file, a template-rendering file and
a leftover helper. -/
def idx8 : RepoIndex :=
  { repo_id := "r8", root_path := "root", commit_sha := none,
    nodes :=
      [("file:app.py", mkFileNode "app.py"),
       ("file:config.py", mkFileNode "config.py"),
       ("file:views.py", mkFileNode "views.py"),
       ("file:pages.py", mkFileNode "pages.py"),
       ("file:helper.py", mkFileNode "helper.py"),
       ("symbol:app.bp",
        { id := "symbol:app.bp", name := "bp", kind := "blueprint",
          summary := "", signature := none, docstring := none,
          location := some { path := some "app.py", start_line := some 1,
                             end_line := some 2 } }),
       ("symbol:pages.show",
        { id := "symbol:pages.show", name := "show", kind := "function",
          summary := "", signature := none, docstring := none,
          location := some { path := some "pages.py", start_line := some 1,
                             end_line := some 3 } }),
       ("external:render_template",
        { id := "external:render_template", name := "render_template",
          kind := "external", summary := "", signature := none,
          docstring := none, location := none })],
    edges :=
      [{ source := "symbol:pages.show", target := "external:render_template",
         kind := "calls", confidence := "low" }],
    toc := .null, warnings := [],
    stats := { total_files := 0, total_bytes := 0, python_files := 0,
               nodes := 0, edges := 0, warnings := 0 },
    content_signature := "s", generated_at := 0 }

/-! ### Helper lemmas -/

theorem mem_insertOpt {β : Type} [DecidableEq β] (acc : Finset β)
    (b? : Option β) (x : β) :
    x ∈ insertOpt acc b? ↔ x ∈ acc ∨ b? = some x := by
  cases b? with
  | none => simp [insertOpt]
  | some b =>
    simp only [insertOpt, Finset.mem_insert, Option.some.injEq]
    constructor
    · rintro (hb | hi)
      · exact Or.inr hb.symm
      · exact Or.inl hi
    · rintro (hi | hb)
      · exact Or.inr hi
      · exact Or.inl hb.symm

theorem foldl_insert_mem {α β : Type} [DecidableEq β] (g : α → Option β)
    (l : List α) (x : β) (init : Finset β) :
    (x ∈ l.foldl (fun acc a => insertOpt acc (g a)) init) ↔
      x ∈ init ∨ ∃ a ∈ l, g a = some x := by
  induction l generalizing init with
  | nil => simp
  | cons a as ih =>
    rw [List.foldl_cons, ih, mem_insertOpt]
    simp only [List.mem_cons]
    constructor
    · rintro (⟨hi | hb⟩ | ⟨c, hc, hgc⟩)
      · exact Or.inl hi
      · exact Or.inr ⟨a, Or.inl rfl, hb⟩
      · exact Or.inr ⟨c, Or.inr hc, hgc⟩
    · rintro (hi | ⟨c, hc | hc, hgc⟩)
      · exact Or.inl (Or.inl hi)
      · subst hc
        exact Or.inl (Or.inr hgc)
      · exact Or.inr ⟨c, hc, hgc⟩

theorem mem_foldInsert {α β : Type} [DecidableEq β] (g : α → Option β)
    (l : List α) (x : β) :
    x ∈ foldInsert g l ↔ ∃ a ∈ l, g a = some x := by
  unfold foldInsert
  rw [foldl_insert_mem]
  simp

theorem foldInsert_eq_empty {α β : Type} [DecidableEq β] (g : α → Option β)
    (l : List α) :
    foldInsert g l = ∅ ↔ ∀ a ∈ l, g a = none := by
  rw [Finset.eq_empty_iff_forall_not_mem]
  constructor
  · intro h a ha
    cases hg : g a with
    | none => rfl
    | some b => exact absurd ((mem_foldInsert g l b).mpr ⟨a, ha, hg⟩) (h b)
  · intro h x hx
    obtain ⟨a, ha, hg⟩ := (mem_foldInsert g l x).mp hx
    rw [h a ha] at hg
    exact Option.noConfusion hg

theorem get_repo_index_hit {φ : Type} (deps : PipelineDeps φ) (spec : RepoSpec)
    (cache_root : String) (fs : String → FileOutcome)
    (hsub : optStrTruthy spec.subdir = true →
      deps.isdir (scan_root_of deps spec cache_root) = true)
    (cached : RepoIndex)
    (hload : load_index deps.json_load deps.from_dict fs
        (joinPath cache_root "index")
        (pipeline_handle deps spec cache_root).repo_id = some cached)
    (hsig : cached.content_signature = fresh_signature deps spec cache_root) :
    get_repo_index deps spec cache_root fs = .ok (cached, fs) := by
  have hcond :
      (optStrTruthy spec.subdir &&
        !(deps.isdir (scan_root_of deps spec cache_root))) = false := by
    cases hx : optStrTruthy spec.subdir with
    | false => rfl
    | true => rw [hsub hx]; rfl
  simp only [pipeline_handle] at hload
  simp only [fresh_signature, pipeline_handle, fresh_scan] at hsig
  simp only [get_repo_index, hcond, Bool.false_eq_true, if_false, hload]
  rw [hsig]
  simp only [beq_self_eq_true, if_true]

theorem get_repo_index_miss {φ : Type} (deps : PipelineDeps φ)
    (spec : RepoSpec) (cache_root : String) (fs : String → FileOutcome)
    (hsub : optStrTruthy spec.subdir = true →
      deps.isdir (scan_root_of deps spec cache_root) = true)
    (hmiss :
      load_index deps.json_load deps.from_dict fs (joinPath cache_root "index")
          (pipeline_handle deps spec cache_root).repo_id = none ∨
        ∃ cached,
          load_index deps.json_load deps.from_dict fs
              (joinPath cache_root "index")
              (pipeline_handle deps spec cache_root).repo_id = some cached ∧
            cached.content_signature ≠ fresh_signature deps spec cache_root) :
    get_repo_index deps spec cache_root fs =
      .ok (fresh_built deps spec cache_root,
        save_index deps.dumps fs (joinPath cache_root "index")
          (fresh_built deps spec cache_root)) := by
  have hcond :
      (optStrTruthy spec.subdir &&
        !(deps.isdir (scan_root_of deps spec cache_root))) = false := by
    cases hx : optStrTruthy spec.subdir with
    | false => rfl
    | true => rw [hsub hx]; rfl
  rcases hmiss with hnone | ⟨cached, hsome, hneq⟩
  · simp only [pipeline_handle] at hnone
    simp only [get_repo_index, hcond, Bool.false_eq_true, if_false, hnone]
    rfl
  · simp only [pipeline_handle] at hsome
    simp only [fresh_signature, pipeline_handle, fresh_scan] at hneq
    have hbeq :
        (cached.content_signature ==
          compute_signature deps.sha1
            (deps.ensure_repo spec (joinPath cache_root "repos")).commit_sha
            (deps.scan_repo (scan_root_of deps spec cache_root))) = false :=
      beq_eq_false_iff_ne.mpr hneq
    simp only [get_repo_index, hcond, Bool.false_eq_true, if_false, hsome,
      hbeq]
    rfl

theorem mem_entry_reserved (index : RepoIndex) (p : String) :
    p ∈ entry_reserved index ↔ p ∈ entry_candidates index := by
  simp [entry_reserved]

theorem mem_assigned1_iff (index : RepoIndex) (p : String) :
    p ∈ assigned1 index ↔ p ∈ entry_reserved index := by
  simp [assigned1]

theorem mem_config_reserved (index : RepoIndex) (p : String) :
    p ∈ config_reserved index ↔
      p ∈ config_candidates index ∧ p ∉ entry_reserved index := by
  simp [config_reserved, Finset.mem_filter, mem_assigned1_iff]

theorem mem_assigned2_iff (index : RepoIndex) (p : String) :
    p ∈ assigned2 index ↔
      p ∈ entry_reserved index ∨ p ∈ config_reserved index := by
  simp [assigned2, Finset.mem_union, mem_assigned1_iff]

theorem mem_route_reserved (index : RepoIndex) (p : String) :
    p ∈ route_reserved index ↔
      p ∈ route_candidates index ∧ p ∉ entry_reserved index ∧
        p ∉ config_reserved index := by
  simp [route_reserved, Finset.mem_filter, mem_assigned2_iff, not_or]

theorem mem_assigned3_iff (index : RepoIndex) (p : String) :
    p ∈ assigned3 index ↔
      p ∈ entry_reserved index ∨ p ∈ config_reserved index ∨
        p ∈ route_reserved index := by
  simp [assigned3, Finset.mem_union, mem_assigned2_iff, or_assoc]

theorem mem_template_reserved (index : RepoIndex) (p : String) :
    p ∈ template_reserved index ↔
      p ∈ template_candidates index ∧ p ∉ entry_reserved index ∧
        p ∉ config_reserved index ∧ p ∉ route_reserved index := by
  simp [template_reserved, Finset.mem_filter, mem_assigned3_iff, not_or]

theorem mem_assigned4_iff (index : RepoIndex) (p : String) :
    p ∈ assigned4 index ↔
      p ∈ entry_reserved index ∨ p ∈ config_reserved index ∨
        p ∈ route_reserved index ∨ p ∈ template_reserved index := by
  simp [assigned4, Finset.mem_union, mem_assigned3_iff, or_assoc]

theorem mem_story_other (index : RepoIndex) (p : String) :
    p ∈ (story_scope_paths index).other ↔
      p ∈ story_file_paths index ∧
        ¬(p ∈ entry_reserved index ∨ p ∈ config_reserved index ∨
          p ∈ route_reserved index ∨ p ∈ template_reserved index) := by
  simp only [story_scope_paths, Finset.mem_sdiff, mem_assigned4_iff]

theorem dictGet_some_mem {α : Type} (m : List (String × α)) (k : String)
    (v : α) (h : dictGet m k = some v) : (k, v) ∈ m := by
  unfold dictGet at h
  cases hf : m.find? (fun kv => kv.1 == k) with
  | none => rw [hf] at h; exact Option.noConfusion h
  | some kv =>
    rw [hf] at h
    have hv : kv.2 = v := Option.some.inj h
    have hmem := List.mem_of_find?_eq_some hf
    have hkey : kv.1 = k := by simpa using List.find?_some hf
    rw [← hv, ← hkey]
    exact hmem

theorem matched_ids_key (index : RepoIndex) (P : Finset String) (x : String)
    (hwf : ∀ kv ∈ index.nodes, kv.1 = kv.2.id) :
    x ∈ matched_ids index P → ∃ kv ∈ index.nodes, kv.1 = x := by
  intro hx
  obtain ⟨kv, hkv, hg⟩ := (mem_foldInsert _ _ _).mp hx
  refine ⟨kv, hkv, ?_⟩
  cases hl : nodeLocPath kv.2 with
  | none =>
    simp only [hl] at hg
    exact Option.noConfusion hg
  | some p =>
    simp only [hl] at hg
    by_cases hp : p ∈ P
    · rw [if_pos hp] at hg
      rw [hwf kv hkv]
      exact Option.some.inj hg
    · rw [if_neg hp] at hg
      exact Option.noConfusion hg

theorem external_extra_key (index : RepoIndex) (allowed : Finset String)
    (x : String) :
    x ∈ external_extra index allowed → ∃ kv ∈ index.nodes, kv.1 = x := by
  intro hx
  obtain ⟨e, _, hg⟩ := (mem_foldInsert _ _ _).mp hx
  by_cases h1 : e.source ∈ allowed ∧ e.target ∉ allowed
  · rw [if_pos h1] at hg
    cases hd : dictGet index.nodes e.target with
    | none =>
      simp only [hd] at hg
      exact Option.noConfusion hg
    | some tn =>
      simp only [hd] at hg
      by_cases hk : (tn.kind == "external") = true
      · rw [if_pos hk] at hg
        have := Option.some.inj hg
        subst this
        exact ⟨(e.target, tn), dictGet_some_mem _ _ _ hd, rfl⟩
      · rw [if_neg hk] at hg
        exact Option.noConfusion hg
  · rw [if_neg h1] at hg
    by_cases h2 : e.target ∈ allowed ∧ e.source ∉ allowed
    · rw [if_pos h2] at hg
      cases hd : dictGet index.nodes e.source with
      | none =>
        simp only [hd] at hg
        exact Option.noConfusion hg
      | some sn =>
        simp only [hd] at hg
        by_cases hk : (sn.kind == "external") = true
        · rw [if_pos hk] at hg
          have := Option.some.inj hg
          subst this
          exact ⟨(e.source, sn), dictGet_some_mem _ _ _ hd, rfl⟩
        · rw [if_neg hk] at hg
          exact Option.noConfusion hg
    · rw [if_neg h2] at hg
      exact Option.noConfusion hg

theorem story_not_group (s : String) (h : strStartsWith s "story:" = true) :
    strStartsWith s "group:" = false := by
  cases hx : strStartsWith s "group:" with
  | false => rfl
  | true =>
    exfalso
    unfold strStartsWith at h hx
    cases hd : s.data with
    | nil =>
      rw [hd] at h
      exact absurd h (by decide)
    | cons c cs =>
      rw [hd] at h hx
      have hs : c = 's' := by
        have h' : (('s' == c) && (['t', 'o', 'r', 'y', ':'].isPrefixOf cs)) = true := h
        cases hsc : ('s' == c) with
        | false => rw [hsc] at h'; exact Bool.noConfusion h'
        | true => exact (eq_of_beq hsc).symm
      have hg : c = 'g' := by
        have h' : (('g' == c) && (['r', 'o', 'u', 'p', ':'].isPrefixOf cs)) = true := hx
        cases hsc : ('g' == c) with
        | false => rw [hsc] at h'; exact Bool.noConfusion h'
        | true => exact (eq_of_beq hsc).symm
      rw [hs] at hg
      exact absurd hg (by decide)

theorem scope_ids_key (index : RepoIndex) (P : Finset String) (x : String)
    (hwf : ∀ kv ∈ index.nodes, kv.1 = kv.2.id) :
    x ∈ scope_ids index P → ∃ kv ∈ index.nodes, kv.1 = x := by
  intro hx
  rcases Finset.mem_union.mp hx with hm | he
  · exact matched_ids_key index P x hwf hm
  · exact external_extra_key index (matched_ids index P) x he

theorem add_edge_grouped_nodes (st : CollapseState) (s t k c : String) :
    (add_edge st s t k c).grouped_nodes = st.grouped_nodes := by
  unfold add_edge
  split <;> rfl

theorem add_edge_grouped_externals (st : CollapseState) (s t k c : String) :
    (add_edge st s t k c).grouped_externals = st.grouped_externals := by
  unfold add_edge
  split <;> rfl

theorem StInv.addEdge {st : CollapseState} (h : StInv st) (s t k c : String) :
    StInv (add_edge st s t k c) := by
  unfold add_edge
  by_cases hk : (s, t, k, c) ∈ st.seen_edges
  · rw [if_pos hk]
    exact h
  · rw [if_neg hk]
    have hkm : (s, t, k, c) ∉ st.new_edges.map edgeKey :=
      fun hm => hk ((h.seen_iff _).mpr hm)
    refine ⟨?_, ?_, h.keys_nodup, h.node_id, h.ext_sub, h.names_nodup⟩
    · rw [List.map_append, List.nodup_append]
      refine ⟨h.edges_nodup, by simp, ?_⟩
      intro x hx
      simp only [List.map_cons, List.map_nil, List.mem_singleton,
        List.not_mem_nil, edgeKey]
      intro hxe
      rw [hxe] at hx
      exact hkm hx
    · intro k'
      simp only [List.mem_cons, List.map_append, List.mem_append,
        List.map_cons, List.map_nil, edgeKey, List.mem_singleton,
        List.not_mem_nil, or_false]
      rw [h.seen_iff k']
      exact or_comm

theorem ensure_group_fields (st : CollapseState) (p : String) :
    (ensure_group_node st p).1.new_edges = st.new_edges ∧
    (ensure_group_node st p).1.seen_edges = st.seen_edges ∧
    (ensure_group_node st p).1.grouped_externals = st.grouped_externals := by
  simp only [ensure_group_node]
  cases hd : dictGet st.grouped_nodes ("external-group:" ++ p) <;>
    exact ⟨rfl, rfl, rfl⟩

theorem ensure_group_mono (st : CollapseState) (p : String) :
    ∀ kv ∈ st.grouped_nodes, kv ∈ (ensure_group_node st p).1.grouped_nodes := by
  simp only [ensure_group_node]
  cases hd : dictGet st.grouped_nodes ("external-group:" ++ p) with
  | none =>
    intro kv hkv
    exact List.mem_append_left _ hkv
  | some v =>
    intro kv hkv
    exact hkv

theorem ensure_group_hasKey (st : CollapseState) (p : String) :
    ∃ kv ∈ (ensure_group_node st p).1.grouped_nodes,
      kv.1 = (ensure_group_node st p).2 := by
  simp only [ensure_group_node]
  cases hd : dictGet st.grouped_nodes ("external-group:" ++ p) with
  | none =>
    refine ⟨_, List.mem_append_right _ (List.mem_singleton_self _), rfl⟩
  | some v =>
    exact ⟨("external-group:" ++ p, v), dictGet_some_mem _ _ _ hd, rfl⟩

theorem StInv.ensure {st : CollapseState} (h : StInv st) (p : String) :
    StInv (ensure_group_node st p).1 := by
  simp only [ensure_group_node]
  cases hd : dictGet st.grouped_nodes ("external-group:" ++ p) with
  | some v => exact h
  | none =>
    have hfind : st.grouped_nodes.find?
        (fun kv => kv.1 == "external-group:" ++ p) = none := by
      unfold dictGet at hd
      cases hf : st.grouped_nodes.find? (fun kv => kv.1 == "external-group:" ++ p) with
      | none => rfl
      | some w => rw [hf] at hd; exact Option.noConfusion hd
    have hkey : ("external-group:" ++ p) ∉
        st.grouped_nodes.map (fun kv => kv.1) := by
      intro hm
      obtain ⟨kv, hkv, hk1⟩ := List.mem_map.mp hm
      have := List.find?_eq_none.mp hfind kv hkv
      simp [hk1] at this
    refine ⟨h.edges_nodup, h.seen_iff, ?_, ?_, ?_, h.names_nodup⟩
    · rw [List.map_append, List.nodup_append]
      refine ⟨h.keys_nodup, by simp, ?_⟩
      intro x hx
      simp only [List.map_cons, List.map_nil, List.mem_singleton,
        List.not_mem_nil]
      intro hxe
      rw [hxe] at hx
      exact hkey hx
    · intro kv hkv
      rcases List.mem_append.mp hkv with hl | hr
      · exact h.node_id kv hl
      · rw [List.mem_singleton.mp hr]
    · intro g hg
      obtain ⟨kv, hkv, hk1⟩ := h.ext_sub g hg
      exact ⟨kv, List.mem_append_left _ hkv, hk1⟩

theorem groupedInsert_keys (ge : List (String × List String))
    (gid nm : String) :
    ∀ kv ∈ groupedInsert ge gid nm,
      (∃ kv' ∈ ge, kv'.1 = kv.1) ∨ kv.1 = gid := by
  unfold groupedInsert
  cases hd : dictGet ge gid with
  | none =>
    intro kv hkv
    rcases List.mem_append.mp hkv with hl | hr
    · exact Or.inl ⟨kv, hl, rfl⟩
    · rw [List.mem_singleton.mp hr]
      exact Or.inr rfl
  | some v =>
    intro kv hkv
    obtain ⟨kv', hkv', hmap⟩ := List.mem_map.mp hkv
    by_cases hk : (kv'.1 == gid) = true
    · rw [if_pos hk] at hmap
      rw [← hmap]
      exact Or.inl ⟨kv', hkv', rfl⟩
    · rw [if_neg hk] at hmap
      rw [← hmap]
      exact Or.inl ⟨kv', hkv', rfl⟩

theorem groupedInsert_names_nodup (ge : List (String × List String))
    (gid nm : String) (h : ∀ kv ∈ ge, kv.2.Nodup) :
    ∀ kv ∈ groupedInsert ge gid nm, kv.2.Nodup := by
  unfold groupedInsert
  cases hd : dictGet ge gid with
  | none =>
    intro kv hkv
    rcases List.mem_append.mp hkv with hl | hr
    · exact h kv hl
    · rw [List.mem_singleton.mp hr]
      exact List.nodup_singleton nm
  | some v =>
    intro kv hkv
    obtain ⟨kv', hkv', hmap⟩ := List.mem_map.mp hkv
    by_cases hk : (kv'.1 == gid) = true
    · rw [if_pos hk] at hmap
      rw [← hmap]
      by_cases hnm : nm ∈ kv'.2
      · simpa [hnm] using h kv' hkv'
      · simp only [hnm, if_neg, if_false]
        rw [List.nodup_append]
        exact ⟨h kv' hkv', List.nodup_singleton nm,
          by simpa using fun hx => hnm hx⟩
    · rw [if_neg hk] at hmap
      rw [← hmap]
      exact h kv' hkv'

theorem StInv.step (nodes : List SymbolNode) (ext : Finset String)
    {st : CollapseState} (h : StInv st) (e : GraphEdge) :
    StInv (collapse_step nodes ext st e) := by
  unfold collapse_step
  by_cases hs : e.source ∈ ext <;> by_cases ht : e.target ∈ ext <;>
      simp only [hs, ht, decide_True, decide_False, Bool.not_true,
        Bool.not_false, Bool.and_self, Bool.and_true, Bool.and_false,
        Bool.true_and, Bool.false_and, Bool.false_eq_true, if_true, if_false,
        ite_true, ite_false]
  · exact h.addEdge _ _ _ _
  · cases hf : file_path_for nodes e.target with
    | none => exact h.addEdge _ _ _ _
    | some fp =>
      have h1 := h.ensure fp
      have hfields := ensure_group_fields st fp
      cases hn : node_by_id nodes e.source with
      | none => exact h1.addEdge _ _ _ _
      | some en =>
        refine StInv.addEdge ?_ _ _ _ _
        refine ⟨h1.edges_nodup, h1.seen_iff, h1.keys_nodup, h1.node_id,
          ?_, ?_⟩
        · intro g hg
          obtain ⟨kv, hkv, hk1⟩ := hg
          rcases groupedInsert_keys _ _ _ kv hkv with ⟨kv', hkv', hk1'⟩ | hgid
          · exact h1.ext_sub g ⟨kv', hkv', hk1'.trans hk1⟩
          · obtain ⟨kv', hkv', hk1'⟩ := ensure_group_hasKey st fp
            exact ⟨kv', hkv', hk1'.trans (hgid.symm.trans hk1)⟩
        · intro kv hkv
          refine groupedInsert_names_nodup _ _ _ ?_ kv hkv
          rw [hfields.2.2]
          exact h.names_nodup
  · cases hf : file_path_for nodes e.source with
    | none => exact h.addEdge _ _ _ _
    | some fp =>
      have h1 := h.ensure fp
      have hfields := ensure_group_fields st fp
      cases hn : node_by_id nodes e.target with
      | none => exact h1.addEdge _ _ _ _
      | some en =>
        refine StInv.addEdge ?_ _ _ _ _
        refine ⟨h1.edges_nodup, h1.seen_iff, h1.keys_nodup, h1.node_id,
          ?_, ?_⟩
        · intro g hg
          obtain ⟨kv, hkv, hk1⟩ := hg
          rcases groupedInsert_keys _ _ _ kv hkv with ⟨kv', hkv', hk1'⟩ | hgid
          · exact h1.ext_sub g ⟨kv', hkv', hk1'.trans hk1⟩
          · obtain ⟨kv', hkv', hk1'⟩ := ensure_group_hasKey st fp
            exact ⟨kv', hkv', hk1'.trans (hgid.symm.trans hk1)⟩
        · intro kv hkv
          refine groupedInsert_names_nodup _ _ _ ?_ kv hkv
          rw [hfields.2.2]
          exact h.names_nodup
  · exact h.addEdge _ _ _ _

theorem StInv.foldl (nodes : List SymbolNode) (ext : Finset String)
    (edges : List GraphEdge) {st : CollapseState} (h : StInv st) :
    StInv (edges.foldl (collapse_step nodes ext) st) := by
  induction edges generalizing st with
  | nil => exact h
  | cons e es ih => exact ih (h.step nodes ext e)

theorem StInv.init :
    StInv { grouped_nodes := [], grouped_externals := [], new_edges := [],
            seen_edges := [] } := by
  refine ⟨List.nodup_nil, ?_, List.nodup_nil, ?_, ?_, ?_⟩ <;> simp

theorem collapse_fold_inv (nodes : List SymbolNode) (ext : Finset String)
    (edges : List GraphEdge) : StInv (collapse_fold nodes ext edges) :=
  StInv.foldl nodes ext edges StInv.init

theorem apply_summaries_keys (st : CollapseState) :
    (apply_summaries st).map (fun kv => kv.1) =
      st.grouped_nodes.map (fun kv => kv.1) := by
  unfold apply_summaries
  rw [List.map_map]
  apply List.map_congr_left
  intro kv _
  cases hd : dictGet st.grouped_externals kv.1 <;> simp [hd]

theorem apply_summaries_ids (st : CollapseState)
    (h : ∀ kv ∈ st.grouped_nodes, kv.2.id = kv.1) :
    (apply_summaries st).map (fun kv => kv.2.id) =
      st.grouped_nodes.map (fun kv => kv.1) := by
  unfold apply_summaries
  rw [List.map_map]
  apply List.map_congr_left
  intro kv hkv
  cases hd : dictGet st.grouped_externals kv.1 <;> simp [hd, h kv hkv]

/-! ### Claim theorems and witnesses -/

/-- Claim C1: the content signature is a pure deterministic function of the
commit sha, the scan statistics (total files, total bytes, python-file
count) and the extension counts taken in sorted order; two computations
agreeing on those inputs produce character-identical signatures whatever the
rest of the scan state (candidate files, warnings, raw extension order)
looks like. -/
theorem claim_C1_signature_pure (sha1 : String → String)
    (c₁ c₂ : Option String) (s₁ s₂ : ScanResult)
    (hc : c₁ = c₂)
    (hf : s₁.total_files = s₂.total_files)
    (hb : s₁.total_bytes = s₂.total_bytes)
    (hp : s₁.python_files.length = s₂.python_files.length)
    (he : sortedExtensions s₁ = sortedExtensions s₂) :
    compute_signature sha1 c₁ s₁ = compute_signature sha1 c₂ s₂ := by
  unfold compute_signature signaturePayload
  rw [hc, hf, hb, hp, he]

theorem claim_C1_witness :
    compute_signature (fun s => s) (some "c0ffee")
        { python_files := ["a.py", "b.py"], total_files := 3, total_bytes := 10,
          extension_counts := [("txt", 1), ("py", 2)], warnings := [] } =
      compute_signature (fun s => s) (some "c0ffee")
        { python_files := ["x.py", "y.py"], total_files := 3, total_bytes := 10,
          extension_counts := [("py", 2), ("txt", 1)],
          warnings := [{ code := "w", message := "m", location := none }] } :=
  claim_C1_signature_pure (fun s => s) (some "c0ffee") (some "c0ffee") _ _
    rfl (by decide) (by decide) (by decide) (by decide)

/-- Claim C2: when a cached index for the handle's repo id carries the same
content signature as the one recomputed from the fresh scan, `get_repo_index`
returns that cached index with the filesystem untouched, and does so for
every possible parser and graph builder (so no parse and no graph build can
influence the result); otherwise it returns the freshly built index and a
filesystem holding its serialization; and saving writes the new entry over
whatever any prior filesystem held at that repo id's index path,
unconditionally, leaving other paths alone. -/
theorem claim_C2_cache_pipeline {φ : Type} (deps : PipelineDeps φ)
    (spec : RepoSpec) (cache_root : String) (fs : String → FileOutcome)
    (hsub : optStrTruthy spec.subdir = true →
      deps.isdir (scan_root_of deps spec cache_root) = true) :
    (∀ cached,
      load_index deps.json_load deps.from_dict fs (joinPath cache_root "index")
          (pipeline_handle deps spec cache_root).repo_id = some cached →
      cached.content_signature = fresh_signature deps spec cache_root →
      ∀ (pf : String → List String → ParseOutput φ) (bg : List φ → GraphOutput),
        get_repo_index { deps with parse_files := pf, build_graph := bg }
            spec cache_root fs = .ok (cached, fs))
    ∧ ((load_index deps.json_load deps.from_dict fs
            (joinPath cache_root "index")
            (pipeline_handle deps spec cache_root).repo_id = none ∨
        ∃ cached,
          load_index deps.json_load deps.from_dict fs
              (joinPath cache_root "index")
              (pipeline_handle deps spec cache_root).repo_id = some cached ∧
            cached.content_signature ≠ fresh_signature deps spec cache_root) →
      get_repo_index deps spec cache_root fs =
        .ok (fresh_built deps spec cache_root,
          save_index deps.dumps fs (joinPath cache_root "index")
            (fresh_built deps spec cache_root)))
    ∧ (∀ (prior : String → FileOutcome) (p : String),
        (p = index_path (joinPath cache_root "index")
            (fresh_built deps spec cache_root).repo_id →
          save_index deps.dumps prior (joinPath cache_root "index")
              (fresh_built deps spec cache_root) p =
            .okFile (deps.dumps (fresh_built deps spec cache_root)))
        ∧ (p ≠ index_path (joinPath cache_root "index")
            (fresh_built deps spec cache_root).repo_id →
          save_index deps.dumps prior (joinPath cache_root "index")
              (fresh_built deps spec cache_root) p = prior p)) := by
  refine ⟨?_, ?_, ?_⟩
  · intro cached hload hsig pf bg
    exact get_repo_index_hit { deps with parse_files := pf, build_graph := bg }
      spec cache_root fs hsub cached hload hsig
  · intro hmiss
    exact get_repo_index_miss deps spec cache_root fs hsub hmiss
  · intro prior p
    constructor
    · intro hp
      subst hp
      simp [save_index]
    · intro hp
      simp [save_index, hp]

theorem claim_C2_witness :
    get_repo_index depsW specW "cache" fsW = .ok (cachedW, fsW) :=
  (claim_C2_cache_pipeline depsW specW "cache" fsW
      (fun h => absurd h (by decide))).1 cachedW rfl (by decide)
    depsW.parse_files depsW.build_graph

/-- Claim C3: `load_index` never raises; it returns `none` when the cache
file is missing, when reading it raises `OSError`, when its content is not
valid JSON, and when the parsed top-level value is not a JSON object, and it
returns an index decoded from the payload otherwise, so cache corruption is
indistinguishable from a cache miss. -/
theorem claim_C3_load_never_raises (json_load : String → Option Json)
    (from_dict : Json → RepoIndex) (fs : String → FileOutcome)
    (cache_root repo_id : String) :
    (fs (index_path cache_root repo_id) = .missing →
      load_index json_load from_dict fs cache_root repo_id = none)
    ∧ (fs (index_path cache_root repo_id) = .ioError →
      load_index json_load from_dict fs cache_root repo_id = none)
    ∧ (∀ c, fs (index_path cache_root repo_id) = .okFile c → json_load c = none →
      load_index json_load from_dict fs cache_root repo_id = none)
    ∧ (∀ c p, fs (index_path cache_root repo_id) = .okFile c →
      json_load c = some p → p.isObj = false →
      load_index json_load from_dict fs cache_root repo_id = none)
    ∧ (∀ c p, fs (index_path cache_root repo_id) = .okFile c →
      json_load c = some p → p.isObj = true →
      load_index json_load from_dict fs cache_root repo_id = some (from_dict p)) := by
  refine ⟨?_, ?_, ?_, ?_, ?_⟩ <;> unfold load_index
  · intro h; rw [h]
  · intro h; rw [h]
  · intro c h hj; rw [h]; simp [hj]
  · intro c p h hj ho; rw [h]; simp [hj, ho]
  · intro c p h hj ho; rw [h]; simp [hj, ho]

theorem claim_C3_witness :
    load_index (fun _ => some (.objVal [("repo_id", .strVal "r")]))
        (fun _ => { repo_id := "r", root_path := "", commit_sha := none,
                    nodes := [], edges := [], toc := .null, warnings := [],
                    stats := { total_files := 0, total_bytes := 0,
                               python_files := 0, nodes := 0, edges := 0,
                               warnings := 0 },
                    content_signature := "s", generated_at := 0 })
        (fun _ => .okFile "x") "root" "r" =
      some { repo_id := "r", root_path := "", commit_sha := none,
             nodes := [], edges := [], toc := .null, warnings := [],
             stats := { total_files := 0, total_bytes := 0, python_files := 0,
                        nodes := 0, edges := 0, warnings := 0 },
             content_signature := "s", generated_at := 0 } :=
  (claim_C3_load_never_raises _ _ _ "root" "r").2.2.2.2 "x"
    (.objVal [("repo_id", .strVal "r")]) rfl rfl rfl

/-- Claim C4: the snippet query returns exactly the range
`_resolve_line_range` computes; for a file node with no recorded line range
that is lines 1 to `min(total, max_lines)`; for any other node the range
starts at the recorded (1-clamped) start line, ends within the file, spans at
most `max_lines` lines, and is exactly the recorded range clamped to the file
when no truncation is needed; and when the recorded end lies before the
start, the span is at most the 40-line fallback context, clamped to file
length. -/
theorem claim_C4_snippet_bounds (kind : String) (loc : SourceLocation)
    (total max_lines : Nat) :
    (∀ (fs : String → SrcOutcome) (index : RepoIndex) (symbol_id : String)
        (node : SymbolNode) (out : Snippet),
      dictGet index.nodes symbol_id = some node → node.location = some loc →
      snippet_query fs index symbol_id max_lines = .ok out →
      (out.start_line, out.end_line) =
        resolve_line_range node.kind loc out.total_lines max_lines)
    ∧ (kind = "file" → startLineOf loc = 1 → endLineOf loc = 0 →
      resolve_line_range kind loc total max_lines = (1, min total max_lines))
    ∧ (¬ kind = "file" →
        (resolve_line_range kind loc total max_lines).1 = startLineOf loc ∧
        1 ≤ (resolve_line_range kind loc total max_lines).1 ∧
        (resolve_line_range kind loc total max_lines).2 ≤ total ∧
        (resolve_line_range kind loc total max_lines).2 + 1 -
          (resolve_line_range kind loc total max_lines).1 ≤ max_lines)
    ∧ (¬ kind = "file" → startLineOf loc ≤ endLineOf loc →
        endLineOf loc + 1 - startLineOf loc ≤ max_lines →
        resolve_line_range kind loc total max_lines =
          (startLineOf loc, min (endLineOf loc) total))
    ∧ (¬ kind = "file" → endLineOf loc < startLineOf loc →
        (resolve_line_range kind loc total max_lines).2 ≤ total ∧
        (resolve_line_range kind loc total max_lines).2 + 1 -
          (resolve_line_range kind loc total max_lines).1 ≤
            DEFAULT_FALLBACK_CONTEXT) := by
  have hstart : 1 ≤ startLineOf loc := le_max_left 1 _
  refine ⟨?_, ?_, ?_, ?_, ?_⟩
  · intro fs index symbol_id node out h1 h2 hok
    simp only [snippet_query, h1, h2] at hok
    by_cases hp : optStrTruthy loc.path = true
    · simp only [hp, Bool.not_true, Bool.false_eq_true, if_false] at hok
      by_cases he : (read_source_lines fs
          (joinPath index.root_path (loc.path.getD ""))).isEmpty = true
      · rw [if_pos he] at hok
        exact Except.noConfusion hok
      · rw [if_neg he] at hok
        have hrec := Except.ok.inj hok
        rw [← hrec]
    · simp only [Bool.not_eq_true] at hp
      simp only [hp, Bool.not_false, if_true] at hok
      exact Except.noConfusion hok
  · intro hk hs he
    subst hk
    have hcond : (("file" == "file") && (endLineOf loc == 0)) = true := by
      rw [he]
      decide
    simp only [resolve_line_range, hcond, if_true, hs]
    have harith : 1 + max_lines - 1 = max_lines := by omega
    rw [harith]
  · intro hk
    have hbeq : (kind == "file") = false := by simpa using hk
    simp only [resolve_line_range, hbeq, Bool.false_and, Bool.false_eq_true,
      if_false]
    refine ⟨by trivial, hstart, Nat.min_le_right _ total, ?_⟩
    by_cases hfb : endLineOf loc < startLineOf loc
    · rw [if_pos hfb]
      by_cases htr : max_lines <
          min total (startLineOf loc + DEFAULT_FALLBACK_CONTEXT - 1) + 1 -
            startLineOf loc
      · rw [if_pos htr]
        have u1 := Nat.min_le_right total (startLineOf loc + max_lines - 1)
        have u2 := Nat.min_le_left
          (min total (startLineOf loc + max_lines - 1)) total
        omega
      · rw [if_neg htr]
        have u1 := Nat.min_le_left
          (min total (startLineOf loc + DEFAULT_FALLBACK_CONTEXT - 1)) total
        omega
    · rw [if_neg hfb]
      by_cases htr : max_lines < endLineOf loc + 1 - startLineOf loc
      · rw [if_pos htr]
        have u1 := Nat.min_le_right total (startLineOf loc + max_lines - 1)
        have u2 := Nat.min_le_left
          (min total (startLineOf loc + max_lines - 1)) total
        omega
      · rw [if_neg htr]
        have u1 := Nat.min_le_left (endLineOf loc) total
        omega
  · intro hk hle hspan
    have hbeq : (kind == "file") = false := by simpa using hk
    simp only [resolve_line_range, hbeq, Bool.false_and, Bool.false_eq_true,
      if_false]
    rw [if_neg (Nat.not_lt.mpr hle), if_neg (Nat.not_lt.mpr hspan)]
  · intro hk hlt
    have hbeq : (kind == "file") = false := by simpa using hk
    simp only [resolve_line_range, hbeq, Bool.false_and, Bool.false_eq_true,
      if_false, if_pos hlt]
    refine ⟨Nat.min_le_right _ total, ?_⟩
    have u3 := Nat.min_le_left total
      (startLineOf loc + DEFAULT_FALLBACK_CONTEXT - 1)
    have u4 := Nat.min_le_right total
      (startLineOf loc + DEFAULT_FALLBACK_CONTEXT - 1)
    by_cases htr : max_lines <
        min total (startLineOf loc + DEFAULT_FALLBACK_CONTEXT - 1) + 1 -
          startLineOf loc
    · rw [if_pos htr]
      have u1 := Nat.min_le_right total (startLineOf loc + max_lines - 1)
      have u2 := Nat.min_le_left
        (min total (startLineOf loc + max_lines - 1)) total
      simp only [DEFAULT_FALLBACK_CONTEXT] at htr u3 u4 ⊢
      omega
    · rw [if_neg htr]
      have u5 := Nat.min_le_left
        (min total (startLineOf loc + DEFAULT_FALLBACK_CONTEXT - 1)) total
      simp only [DEFAULT_FALLBACK_CONTEXT] at htr u3 u4 u5 ⊢
      omega

theorem claim_C4_witness :
    resolve_line_range "function"
        { path := some "a.py", start_line := some 10, end_line := some 5 }
        100 200 = (10, 49) ∧
    (resolve_line_range "function"
        { path := some "a.py", start_line := some 10, end_line := some 5 }
        100 200).2 + 1 -
      (resolve_line_range "function"
        { path := some "a.py", start_line := some 10, end_line := some 5 }
        100 200).1 ≤ DEFAULT_FALLBACK_CONTEXT :=
  ⟨by decide,
   ((claim_C4_snippet_bounds "function"
      { path := some "a.py", start_line := some 10, end_line := some 5 }
      100 200).2.2.2.2 (by decide) (by decide)).2⟩

/-- Claim C5: the snippet query fails with `Symbol not found` exactly when
the symbol id is absent from the node map, with `Symbol has no location` when
the node lacks a located path, with the unreadable-source error when the file
cannot be opened even after the decode retry, and a strict-UTF-8 decode
failure falls back to the replacement-character read and still succeeds when
that read yields lines. -/
theorem claim_C5_snippet_errors (fs : String → SrcOutcome) (index : RepoIndex)
    (symbol_id : String) (max_lines : Nat) :
    (dictGet index.nodes symbol_id = none ↔
      snippet_query fs index symbol_id max_lines = .error "Symbol not found")
    ∧ (∀ node, dictGet index.nodes symbol_id = some node →
        (node.location = none ∨
          ∃ loc, node.location = some loc ∧ optStrTruthy loc.path = false) →
        snippet_query fs index symbol_id max_lines =
          .error "Symbol has no location")
    ∧ (∀ node loc, dictGet index.nodes symbol_id = some node →
        node.location = some loc → optStrTruthy loc.path = true →
        (fs (joinPath index.root_path (loc.path.getD "")) = .osErr ∨
          fs (joinPath index.root_path (loc.path.getD "")) = .decodeErrThenErr) →
        snippet_query fs index symbol_id max_lines =
          .error "Source file is empty or unreadable")
    ∧ (∀ node loc lines, dictGet index.nodes symbol_id = some node →
        node.location = some loc → optStrTruthy loc.path = true →
        fs (joinPath index.root_path (loc.path.getD "")) = .decodeErrThenOk lines →
        lines ≠ [] →
        ∃ out, snippet_query fs index symbol_id max_lines = .ok out) := by
  refine ⟨⟨?_, ?_⟩, ?_, ?_, ?_⟩
  · intro h
    simp [snippet_query, h]
  · intro herr
    cases hd : dictGet index.nodes symbol_id with
    | none => rfl
    | some node =>
      exfalso
      simp only [snippet_query, hd] at herr
      cases hloc : node.location with
      | none =>
        rw [hloc] at herr
        exact absurd (Except.error.inj herr) (by decide)
      | some loc =>
        rw [hloc] at herr
        by_cases hp : optStrTruthy loc.path
        · simp only [hp, Bool.not_true, Bool.false_eq_true, if_false] at herr
          by_cases he : (read_source_lines fs
              (joinPath index.root_path (loc.path.getD ""))).isEmpty
          · rw [if_pos he] at herr
            exact absurd (Except.error.inj herr) (by decide)
          · rw [if_neg he] at herr
            exact Except.noConfusion herr
        · simp only [hp, Bool.not_false, if_true] at herr
          exact absurd (Except.error.inj herr) (by decide)
  · intro node h1 h2
    rcases h2 with hnone | ⟨loc, hloc, hfalse⟩
    · simp [snippet_query, h1, hnone]
    · simp [snippet_query, h1, hloc, hfalse]
  · intro node loc h1 h2 h3 hfs
    rcases hfs with hfs | hfs <;>
      simp [snippet_query, h1, h2, h3, read_source_lines, hfs]
  · intro node loc lines h1 h2 h3 hfs hne
    simp only [snippet_query, h1, h2, h3, Bool.not_true, Bool.false_eq_true,
      if_false, read_source_lines, hfs]
    rw [if_neg (by simpa using hne)]
    exact ⟨_, rfl⟩

theorem claim_C5_witness :
    ∃ out,
      snippet_query (fun _ => .decodeErrThenOk ["line one\n", "line two\n"])
        sampleIndex "symbol:m.g" 200 = .ok out :=
  (claim_C5_snippet_errors
      (fun _ => .decodeErrThenOk ["line one\n", "line two\n"]) sampleIndex
      "symbol:m.g" 200).2.2.2 sampleFnNode sampleLoc
    ["line one\n", "line two\n"] rfl rfl (by decide) rfl (by decide)

/-- Claim C6: an empty, `full`, unrecognized or empty-resolving scope token
returns the full node and edge sets; a `group:` or `story:` scope that
resolves to paths matching at least one node returns the subgraph induced on
the nodes located in those paths together with the external nodes directly
across an edge from them, and every returned edge has both its endpoints
among the returned nodes. -/
theorem claim_C6_scoped_graph (index : RepoIndex)
    (hwf : ∀ kv ∈ index.nodes, kv.1 = kv.2.id) :
    (filter_graph index "" = (dictValues index.nodes, index.edges))
    ∧ (filter_graph index "full" = (dictValues index.nodes, index.edges))
    ∧ (∀ scope, scope ≠ "" → scope ≠ "full" →
        strStartsWith scope "group:" = false →
        strStartsWith scope "story:" = false →
        filter_graph index scope = (dictValues index.nodes, index.edges))
    ∧ (∀ scope, strStartsWith scope "group:" = true →
        group_paths index (strDrop scope 6) = ∅ →
        filter_graph index scope = (dictValues index.nodes, index.edges))
    ∧ (∀ scope, strStartsWith scope "story:" = true →
        storyGet (story_scope_paths index) scope = ∅ →
        filter_graph index scope = (dictValues index.nodes, index.edges))
    ∧ (∀ P, matched_ids index P = ∅ →
        apply_scope_paths index P = (dictValues index.nodes, index.edges))
    ∧ (∀ scope, strStartsWith scope "group:" = true →
        group_paths index (strDrop scope 6) ≠ ∅ →
        filter_graph index scope =
          apply_scope_paths index (group_paths index (strDrop scope 6)))
    ∧ (∀ scope, strStartsWith scope "story:" = true →
        storyGet (story_scope_paths index) scope ≠ ∅ →
        filter_graph index scope =
          apply_scope_paths index (storyGet (story_scope_paths index) scope))
    ∧ (∀ P, matched_ids index P ≠ ∅ →
        (∀ n, n ∈ (apply_scope_paths index P).1 ↔
          n ∈ dictValues index.nodes ∧ n.id ∈ scope_ids index P)
        ∧ (∀ e, e ∈ (apply_scope_paths index P).2 ↔
          e ∈ index.edges ∧ e.source ∈ scope_ids index P ∧
            e.target ∈ scope_ids index P)
        ∧ (∀ e, e ∈ (apply_scope_paths index P).2 →
          (∃ n ∈ (apply_scope_paths index P).1, n.id = e.source) ∧
          (∃ n ∈ (apply_scope_paths index P).1, n.id = e.target))) := by
  have happ : ∀ P, matched_ids index P ≠ ∅ →
      apply_scope_paths index P =
        ((index.nodes.filter
            (fun kv => decide (kv.1 ∈ scope_ids index P))).map
          (fun kv => kv.2),
         index.edges.filter
          (fun e => decide (e.source ∈ scope_ids index P) &&
            decide (e.target ∈ scope_ids index P))) := by
    intro P hm
    simp only [apply_scope_paths]
    rw [if_neg hm]
    rfl
  have hnodes : ∀ P, matched_ids index P ≠ ∅ →
      ∀ n, n ∈ (apply_scope_paths index P).1 ↔
        n ∈ dictValues index.nodes ∧ n.id ∈ scope_ids index P := by
    intro P hm n
    rw [happ P hm]
    simp only [List.mem_map, List.mem_filter, decide_eq_true_eq]
    constructor
    · rintro ⟨kv, ⟨hkv, hal⟩, rfl⟩
      exact ⟨List.mem_map.mpr ⟨kv, hkv, rfl⟩, (hwf kv hkv) ▸ hal⟩
    · rintro ⟨hn, hid⟩
      obtain ⟨kv, hkv, rfl⟩ := List.mem_map.mp hn
      exact ⟨kv, ⟨hkv, (hwf kv hkv).symm ▸ hid⟩, rfl⟩
  refine ⟨by rfl, by rfl, ?_, ?_, ?_, ?_, ?_, ?_, ?_⟩
  · intro scope h1 h2 h3 h4
    have e1 : (scope == "") = false := beq_eq_false_iff_ne.mpr h1
    have e2 : (scope == "full") = false := beq_eq_false_iff_ne.mpr h2
    simp only [filter_graph, e1, e2, h3, h4, Bool.or_self,
      Bool.false_eq_true, if_false]
  · intro scope hg hempty
    have h1 : scope ≠ "" := fun h => by rw [h] at hg; exact absurd hg (by decide)
    have h2 : scope ≠ "full" := fun h => by
      rw [h] at hg; exact absurd hg (by decide)
    have e1 : (scope == "") = false := beq_eq_false_iff_ne.mpr h1
    have e2 : (scope == "full") = false := beq_eq_false_iff_ne.mpr h2
    simp only [filter_graph, e1, e2, Bool.or_self, Bool.false_eq_true,
      if_false, hg, if_true, hempty]
  · intro scope hg hempty
    have h1 : scope ≠ "" := fun h => by rw [h] at hg; exact absurd hg (by decide)
    have h2 : scope ≠ "full" := fun h => by
      rw [h] at hg; exact absurd hg (by decide)
    have hng : strStartsWith scope "group:" = false := story_not_group scope hg
    have e1 : (scope == "") = false := beq_eq_false_iff_ne.mpr h1
    have e2 : (scope == "full") = false := beq_eq_false_iff_ne.mpr h2
    simp only [filter_graph, e1, e2, Bool.or_self, Bool.false_eq_true,
      if_false, hng, hg, if_true, hempty]
  · intro P hm
    simp only [apply_scope_paths]
    rw [if_pos hm]
  · intro scope hg hne
    have h1 : scope ≠ "" := fun h => by rw [h] at hg; exact absurd hg (by decide)
    have h2 : scope ≠ "full" := fun h => by
      rw [h] at hg; exact absurd hg (by decide)
    have e1 : (scope == "") = false := beq_eq_false_iff_ne.mpr h1
    have e2 : (scope == "full") = false := beq_eq_false_iff_ne.mpr h2
    simp only [filter_graph, e1, e2, Bool.or_self, Bool.false_eq_true,
      if_false, hg, if_true]
    rw [if_neg hne]
  · intro scope hg hne
    have h1 : scope ≠ "" := fun h => by rw [h] at hg; exact absurd hg (by decide)
    have h2 : scope ≠ "full" := fun h => by
      rw [h] at hg; exact absurd hg (by decide)
    have hng : strStartsWith scope "group:" = false := story_not_group scope hg
    have e1 : (scope == "") = false := beq_eq_false_iff_ne.mpr h1
    have e2 : (scope == "full") = false := beq_eq_false_iff_ne.mpr h2
    simp only [filter_graph, e1, e2, Bool.or_self, Bool.false_eq_true,
      if_false, hng, hg, if_true]
    rw [if_neg hne]
  · intro P hm
    refine ⟨hnodes P hm, ?_, ?_⟩
    · intro e
      rw [happ P hm]
      simp only [List.mem_filter, Bool.and_eq_true, decide_eq_true_eq]
    · intro e he
      have hee := (by
        rw [happ P hm] at he
        simpa only [List.mem_filter, Bool.and_eq_true, decide_eq_true_eq]
          using he :
        e ∈ index.edges ∧ e.source ∈ scope_ids index P ∧
          e.target ∈ scope_ids index P)
      obtain ⟨hmem, hs, ht⟩ := hee
      constructor
      · obtain ⟨kv, hkv, hk1⟩ := scope_ids_key index P e.source hwf hs
        exact ⟨kv.2, (hnodes P hm kv.2).mpr
          ⟨List.mem_map.mpr ⟨kv, hkv, rfl⟩, (hwf kv hkv) ▸ hk1 ▸ hs⟩,
          (hwf kv hkv) ▸ hk1⟩
      · obtain ⟨kv, hkv, hk1⟩ := scope_ids_key index P e.target hwf ht
        exact ⟨kv.2, (hnodes P hm kv.2).mpr
          ⟨List.mem_map.mpr ⟨kv, hkv, rfl⟩, (hwf kv hkv) ▸ hk1 ▸ ht⟩,
          (hwf kv hkv) ▸ hk1⟩

theorem claim_C6_witness :
    (∃ n ∈ (apply_scope_paths idx8 {"pages.py"}).1,
        n.id = "symbol:pages.show") ∧
    (∃ n ∈ (apply_scope_paths idx8 {"pages.py"}).1,
        n.id = "external:render_template") :=
  ((claim_C6_scoped_graph idx8 (by decide)).2.2.2.2.2.2.2.2 {"pages.py"}
      (by decide)).2.2
    { source := "symbol:pages.show", target := "external:render_template",
      kind := "calls", confidence := "low" } (by decide)

/-- Claim C8: the story grouping partitions the file-node paths into five
pairwise-disjoint categories; every file path lands in exactly one of them;
and the categories are claimed in strict priority order (entry points first,
then configuration, then routes, then templates, then everything else), so a
path matching an earlier category never reappears in a later one. -/
theorem claim_C8_story_partition (index : RepoIndex) :
    (List.Pairwise (fun s t => Disjoint s t)
      [(story_scope_paths index).entry, (story_scope_paths index).config,
       (story_scope_paths index).routes, (story_scope_paths index).templates,
       (story_scope_paths index).other])
    ∧ (∀ p ∈ story_file_paths index,
        ([(story_scope_paths index).entry, (story_scope_paths index).config,
          (story_scope_paths index).routes,
          (story_scope_paths index).templates,
          (story_scope_paths index).other].countP
            (fun s => decide (p ∈ s))) = 1)
    ∧ (∀ p ∈ entry_candidates index, p ∈ (story_scope_paths index).entry)
    ∧ (∀ p ∈ config_candidates index,
        p ∈ (story_scope_paths index).entry ∨
          p ∈ (story_scope_paths index).config)
    ∧ (∀ p ∈ route_candidates index,
        p ∈ (story_scope_paths index).entry ∨
          p ∈ (story_scope_paths index).config ∨
          p ∈ (story_scope_paths index).routes)
    ∧ (∀ p ∈ template_candidates index,
        p ∈ (story_scope_paths index).entry ∨
          p ∈ (story_scope_paths index).config ∨
          p ∈ (story_scope_paths index).routes ∨
          p ∈ (story_scope_paths index).templates) := by
  have hec : ∀ p, p ∈ config_reserved index → p ∉ entry_reserved index :=
    fun p hp => ((mem_config_reserved index p).mp hp).2
  have her : ∀ p, p ∈ route_reserved index → p ∉ entry_reserved index :=
    fun p hp => ((mem_route_reserved index p).mp hp).2.1
  have hcr : ∀ p, p ∈ route_reserved index → p ∉ config_reserved index :=
    fun p hp => ((mem_route_reserved index p).mp hp).2.2
  have het : ∀ p, p ∈ template_reserved index → p ∉ entry_reserved index :=
    fun p hp => ((mem_template_reserved index p).mp hp).2.1
  have hct : ∀ p, p ∈ template_reserved index → p ∉ config_reserved index :=
    fun p hp => ((mem_template_reserved index p).mp hp).2.2.1
  have hrt : ∀ p, p ∈ template_reserved index → p ∉ route_reserved index :=
    fun p hp => ((mem_template_reserved index p).mp hp).2.2.2
  have hoth : ∀ p, p ∈ (story_scope_paths index).other →
      p ∉ entry_reserved index ∧ p ∉ config_reserved index ∧
        p ∉ route_reserved index ∧ p ∉ template_reserved index := by
    intro p hp
    have h := ((mem_story_other index p).mp hp).2
    push_neg at h
    exact h
  refine ⟨?_, ?_, ?_, ?_, ?_, ?_⟩
  · simp only [story_scope_paths, List.pairwise_cons, List.mem_cons,
      List.mem_singleton, List.not_mem_nil]
    refine ⟨?_, ?_, ?_, ?_, ?_⟩
    · rintro s (rfl | rfl | rfl | rfl | h)
      · exact Finset.disjoint_right.mpr (fun p hp => hec p hp)
      · exact Finset.disjoint_right.mpr (fun p hp => her p hp)
      · exact Finset.disjoint_right.mpr (fun p hp => het p hp)
      · exact Finset.disjoint_right.mpr
          (fun p hp => ((hoth p ((mem_story_other index p).mpr
            ((mem_story_other index p).mp hp))).1))
      · exact absurd h (by simp)
    · rintro s (rfl | rfl | rfl | h)
      · exact Finset.disjoint_right.mpr (fun p hp => hcr p hp)
      · exact Finset.disjoint_right.mpr (fun p hp => hct p hp)
      · exact Finset.disjoint_right.mpr (fun p hp => (hoth p hp).2.1)
      · exact absurd h (by simp)
    · rintro s (rfl | rfl | h)
      · exact Finset.disjoint_right.mpr (fun p hp => hrt p hp)
      · exact Finset.disjoint_right.mpr (fun p hp => (hoth p hp).2.2.1)
      · exact absurd h (by simp)
    · rintro s (rfl | h)
      · exact Finset.disjoint_right.mpr (fun p hp => (hoth p hp).2.2.2)
      · exact absurd h (by simp)
    · exact ⟨fun s h => absurd h (by simp), List.Pairwise.nil⟩
  · intro p hp
    by_cases h1 : p ∈ entry_reserved index
    · have h2 : p ∉ config_reserved index := fun hc => hec p hc h1
      have h3 : p ∉ route_reserved index := fun hc => her p hc h1
      have h4 : p ∉ template_reserved index := fun hc => het p hc h1
      have h5 : p ∉ (story_scope_paths index).other :=
        fun ho => (hoth p ho).1 h1
      simp only [story_scope_paths] at h5 ⊢
      simp [List.countP_cons, h1, h2, h3, h4, h5]
    · by_cases h2 : p ∈ config_reserved index
      · have h3 : p ∉ route_reserved index := fun hc => hcr p hc h2
        have h4 : p ∉ template_reserved index := fun hc => hct p hc h2
        have h5 : p ∉ (story_scope_paths index).other :=
          fun ho => (hoth p ho).2.1 h2
        simp only [story_scope_paths] at h5 ⊢
        simp [List.countP_cons, h1, h2, h3, h4, h5]
      · by_cases h3 : p ∈ route_reserved index
        · have h4 : p ∉ template_reserved index := fun hc => hrt p hc h3
          have h5 : p ∉ (story_scope_paths index).other :=
            fun ho => (hoth p ho).2.2.1 h3
          simp only [story_scope_paths] at h5 ⊢
          simp [List.countP_cons, h1, h2, h3, h4, h5]
        · by_cases h4 : p ∈ template_reserved index
          · have h5 : p ∉ (story_scope_paths index).other :=
              fun ho => (hoth p ho).2.2.2 h4
            simp only [story_scope_paths] at h5 ⊢
            simp [List.countP_cons, h1, h2, h3, h4, h5]
          · have h5 : p ∈ (story_scope_paths index).other :=
              (mem_story_other index p).mpr
                ⟨hp, by push_neg; exact ⟨h1, h2, h3, h4⟩⟩
            simp only [story_scope_paths] at h5 ⊢
            simp [List.countP_cons, h1, h2, h3, h4, h5]
  · intro p hp
    simp only [story_scope_paths]
    exact (mem_entry_reserved index p).mpr hp
  · intro p hp
    simp only [story_scope_paths]
    by_cases h1 : p ∈ entry_reserved index
    · exact Or.inl h1
    · exact Or.inr ((mem_config_reserved index p).mpr ⟨hp, h1⟩)
  · intro p hp
    simp only [story_scope_paths]
    by_cases h1 : p ∈ entry_reserved index
    · exact Or.inl h1
    · by_cases h2 : p ∈ config_reserved index
      · exact Or.inr (Or.inl h2)
      · exact Or.inr (Or.inr ((mem_route_reserved index p).mpr ⟨hp, h1, h2⟩))
  · intro p hp
    simp only [story_scope_paths]
    by_cases h1 : p ∈ entry_reserved index
    · exact Or.inl h1
    · by_cases h2 : p ∈ config_reserved index
      · exact Or.inr (Or.inl h2)
      · by_cases h3 : p ∈ route_reserved index
        · exact Or.inr (Or.inr (Or.inl h3))
        · exact Or.inr (Or.inr (Or.inr
            ((mem_template_reserved index p).mpr ⟨hp, h1, h2, h3⟩)))

theorem claim_C8_witness :
    ([(story_scope_paths idx8).entry, (story_scope_paths idx8).config,
      (story_scope_paths idx8).routes, (story_scope_paths idx8).templates,
      (story_scope_paths idx8).other].countP
        (fun s => decide ("helper.py" ∈ s))) = 1 :=
  (claim_C8_story_partition idx8).2.1 "helper.py" (by decide)

/-- Claim C7: collapsing externals creates at most one synthetic group node
per file path, deduplicates the emitted edges on
`(source, target, kind, confidence)`, reports on each group node the number
of distinct external names it absorbed, and on the spec's example — one file
calling two distinct unresolved names — produces exactly one group node
summarized as `2 external symbols` with the two call edges redirected onto
it and merged into one. -/
theorem claim_C7_collapse (nodes : List SymbolNode) (edges : List GraphEdge) :
    ((∃ n ∈ nodes, n.kind = "external") →
      ((collapse_externals nodes edges).2.map edgeKey).Nodup)
    ∧ ((∀ n ∈ nodes, ∀ p : String, n.id ≠ "external-group:" ++ p) →
      ∀ p : String,
        ((collapse_externals nodes edges).1.map (fun n => n.id)).count
          ("external-group:" ++ p) ≤ 1)
    ∧ ((∃ n ∈ nodes, n.kind = "external") →
      ∀ gid names,
        dictGet (collapse_fold nodes (external_ids_of nodes)
            edges).grouped_externals gid = some names →
        names.Nodup ∧
          ∃ node ∈ (collapse_externals nodes edges).1,
            node.id = gid ∧ node.summary = groupSummary names.length)
    ∧ collapse_externals [nF7, nE7a, nE7b] [e7a, e7b] = ([nF7, gN7], [gE7]) := by
  have hnemp : ∀ (hx : ∃ n ∈ nodes, n.kind = "external"),
      external_ids_of nodes ≠ ∅ := by
    rintro ⟨n, hn, hk⟩
    exact Finset.ne_empty_of_mem
      ((mem_foldInsert _ _ n.id).mpr ⟨n, hn, by simp [hk]⟩)
  have hinv := collapse_fold_inv nodes (external_ids_of nodes) edges
  refine ⟨?_, ?_, ?_, ?_⟩
  · intro hx
    have hne := hnemp hx
    simp only [collapse_externals]
    rw [if_neg hne]
    exact hinv.edges_nodup
  · intro hids p
    by_cases hne : external_ids_of nodes = ∅
    · simp only [collapse_externals]
      rw [if_pos hne]
      show ((nodes.map (fun n => n.id)).count ("external-group:" ++ p)) ≤ 1
      have h0 : ("external-group:" ++ p) ∉ nodes.map (fun n => n.id) := by
        intro hm
        obtain ⟨n, hn, hid⟩ := List.mem_map.mp hm
        exact hids n hn p hid
      rw [List.count_eq_zero.mpr h0]
      omega
    · simp only [collapse_externals]
      rw [if_neg hne]
      rw [List.map_append, List.count_append]
      have h0 : (((nodes.filter
          (fun n => !(n.kind == "external") ||
            decide (n.id ∈
              foldInsert (fun e => some e.source)
                  (collapse_fold nodes (external_ids_of nodes)
                    edges).new_edges ∪
                foldInsert (fun e => some e.target)
                  (collapse_fold nodes (external_ids_of nodes)
                    edges).new_edges))).map (fun n => n.id)).count
            ("external-group:" ++ p)) = 0 := by
        rw [List.count_eq_zero]
        intro hm
        obtain ⟨n, hn, hid⟩ := List.mem_map.mp hm
        exact hids n (List.mem_filter.mp hn).1 p hid
      have h1 : ((((apply_summaries
            (collapse_fold nodes (external_ids_of nodes) edges)).map
              (fun kv => kv.2)).map (fun n => n.id)).count
            ("external-group:" ++ p)) ≤ 1 := by
        rw [List.map_map]
        show (((apply_summaries
            (collapse_fold nodes (external_ids_of nodes) edges)).map
              (fun kv => kv.2.id)).count ("external-group:" ++ p)) ≤ 1
        rw [apply_summaries_ids _ hinv.node_id]
        exact List.nodup_iff_count_le_one.mp hinv.keys_nodup _
      omega
  · intro hx gid names hdg
    have hne := hnemp hx
    have hmem : (gid, names) ∈ (collapse_fold nodes (external_ids_of nodes)
        edges).grouped_externals := dictGet_some_mem _ _ _ hdg
    refine ⟨hinv.names_nodup (gid, names) hmem, ?_⟩
    obtain ⟨kv0, hkv0, hk0⟩ := hinv.ext_sub gid ⟨(gid, names), hmem, rfl⟩
    have hF : dictGet (collapse_fold nodes (external_ids_of nodes)
        edges).grouped_externals kv0.1 = some names := by
      rw [hk0]
      exact hdg
    have hcoll : (collapse_externals nodes edges).1 =
        (nodes.filter
          (fun n => !(n.kind == "external") ||
            decide (n.id ∈
              foldInsert (fun e => some e.source)
                  (collapse_fold nodes (external_ids_of nodes)
                    edges).new_edges ∪
                foldInsert (fun e => some e.target)
                  (collapse_fold nodes (external_ids_of nodes)
                    edges).new_edges))) ++
          (apply_summaries
            (collapse_fold nodes (external_ids_of nodes) edges)).map
            (fun kv => kv.2) := by
      simp only [collapse_externals]
      rw [if_neg hne]
    refine ⟨{ kv0.2 with summary := groupSummary names.length }, ?_, ?_, rfl⟩
    · rw [hcoll]
      refine List.mem_append_right _ ?_
      simp only [apply_summaries, List.map_map]
      refine List.mem_map.mpr ⟨kv0, hkv0, ?_⟩
      simp only [Function.comp_apply, hF]
    · show ({ kv0.2 with summary := groupSummary names.length } : SymbolNode).id = gid
      show kv0.2.id = gid
      rw [hinv.node_id kv0 hkv0]
      exact hk0
  · decide

theorem claim_C7_witness :
    ((collapse_externals [nF7, nE7a, nE7b] [e7a, e7b]).2.map edgeKey).Nodup ∧
    ((collapse_externals [nF7, nE7a, nE7b] [e7a, e7b]).1.map
        (fun n => n.id)).count "external-group:main.py" ≤ 1 := by
  have h := claim_C7_collapse [nF7, nE7a, nE7b] [e7a, e7b]
  refine ⟨h.1 ⟨nE7a, by decide, rfl⟩, ?_⟩
  have hids : ∀ n ∈ [nF7, nE7a, nE7b], ∀ p : String,
      n.id ≠ "external-group:" ++ p := by
    intro n hn p heq
    fin_cases hn <;>
    · have h1 : (12 : Nat) = ("external-group:".data ++ p.data).length :=
        congrArg (fun s : String => s.data.length) heq
      rw [List.length_append] at h1
      have h2 : (12 : Nat) = 15 + p.data.length := h1
      omega
  have hcount := h.2.1 hids "main.py"
  exact hcount

/-- Claim C9: a symbol whose located source file reads back as zero lines
(an empty file) makes the snippet query raise
`Source file is empty or unreadable`, the same outcome as an unreadable
file: at the interface the two are indistinguishable. -/
theorem claim_C9_empty_file (fs₁ fs₂ : String → SrcOutcome)
    (index : RepoIndex) (symbol_id : String) (max_lines : Nat)
    (node : SymbolNode) (loc : SourceLocation)
    (h1 : dictGet index.nodes symbol_id = some node)
    (h2 : node.location = some loc)
    (h3 : optStrTruthy loc.path = true)
    (hE : fs₁ (joinPath index.root_path (loc.path.getD "")) = .utf8Ok [])
    (hU : fs₂ (joinPath index.root_path (loc.path.getD "")) = .osErr) :
    snippet_query fs₁ index symbol_id max_lines =
      .error "Source file is empty or unreadable"
    ∧ snippet_query fs₁ index symbol_id max_lines =
      snippet_query fs₂ index symbol_id max_lines := by
  constructor <;>
    simp [snippet_query, h1, h2, h3, read_source_lines, hE, hU]

theorem claim_C9_witness :
    snippet_query (fun _ => .utf8Ok []) sampleIndex "symbol:m.g" 200 =
      .error "Source file is empty or unreadable" :=
  (claim_C9_empty_file (fun _ => .utf8Ok []) (fun _ => .osErr) sampleIndex
    "symbol:m.g" 200 sampleFnNode sampleLoc rfl rfl (by decide) rfl rfl).1

/-- Claim C10: when the node list carries no external-kind node, external
collapsing is the identity on both lists; in particular duplicate edges are
returned as they came in, since deduplication only happens on the other
branch. -/
theorem claim_C10_collapse_identity (nodes : List SymbolNode)
    (edges : List GraphEdge) (h : ∀ n ∈ nodes, n.kind ≠ "external") :
    collapse_externals nodes edges = (nodes, edges) := by
  have hempty : external_ids_of nodes = ∅ := by
    unfold external_ids_of
    rw [foldInsert_eq_empty]
    intro n hn
    simp [h n hn]
  simp only [collapse_externals]
  rw [if_pos hempty]

theorem claim_C10_witness :
    collapse_externals
        [{ id := "file:a.py", name := "a.py", kind := "file", summary := "",
           signature := none, docstring := none,
           location := some { path := some "a.py", start_line := none,
                              end_line := none } }]
        [{ source := "file:a.py", target := "file:a.py", kind := "calls",
           confidence := "high" },
         { source := "file:a.py", target := "file:a.py", kind := "calls",
           confidence := "high" }] =
      ([{ id := "file:a.py", name := "a.py", kind := "file", summary := "",
          signature := none, docstring := none,
          location := some { path := some "a.py", start_line := none,
                             end_line := none } }],
       [{ source := "file:a.py", target := "file:a.py", kind := "calls",
          confidence := "high" },
        { source := "file:a.py", target := "file:a.py", kind := "calls",
          confidence := "high" }]) :=
  claim_C10_collapse_identity _ _ (by decide)

end GitReader
